import Mathlib

/-!
# K8s-Resource-Monitor: health aggregation and monitor loop

A shallow embedding of `main.go`, `checker.go`, `pods.go`, `jobs.go`, `pv.go`
and `pvc.go`.

Conventions of the embedding.
* Go `string` is `String`; `map[string]string` is a partial function
  `String → Option String`.  The separator `=` and the text `not found` are
  ASCII, so splitting and searching by character agrees with Go's byte-wise
  `strings.SplitN` and `strings.Contains` on UTF-8 text.
* The Kubernetes API is an input: one `PollInput` carries what the API answers
  during one iteration of the monitor loop (the raw fetch of the custom
  resource and the four list calls, already filtered by label selector on the
  server), the outcome of the rate limiter, and the clock reading used for
  the store write.
* Logging is not modelled; `lastReadyCheck` in `monitorHealth` only feeds a
  log line and is left out.
* `time.Duration` is `Int` nanoseconds; the one addition performed on a
  duration wraps at 64 bits (`wrapInt64`).  The two loop counters are `Int`:
  each is compared with its threshold right after its increment, so it never
  leaves the `int` range (`monitorIteration_counters_bounded`).
* `monitorHealth` runs against a finite list of `PollInput`s, one per loop
  iteration; a run that has consumed them all without returning is still
  running (`stopped = none`).
* A handler is a function from the cache (and the clock) to the cache it
  leaves, the answer it writes and, for `healthHandler`, the arguments of the
  `go monitorHealth(...)` it issues, if any.
-/

namespace K8sMonitor

/-! ## checker.go -/

/-- Go `UnhealthyChild` (checker.go). -/
structure UnhealthyChild where
  Kind : String
  Name : String
  Status : String
  Message : String
  Reason : String
  deriving DecidableEq, Repr

/-! ## main.go: data -/

/-- Go `CustomResourceStatus` (main.go). -/
structure CustomResourceStatus where
  Status : String := ""
  Details : List UnhealthyChild := []
  Message : String := ""
  deriving DecidableEq, Repr

/-- Go `ResourceStatus` (main.go); `Timestamp` is a clock reading in nanoseconds. -/
structure ResourceStatus where
  CustomResourceStatus : CustomResourceStatus
  Timestamp : Int
  ConsecHealthyChecks : Int := 0
  ConsecFailedChecks : Int := 0
  deriving DecidableEq, Repr

/-- The annotations of a child object: Go `map[string]string`. -/
abbrev Annotations := String → Option String

/-! ## Go library functions used by the code -/

/-- Position-wise search of `sub` in `s`: Go `strings.Contains` on the characters. -/
def containsChars (sub : List Char) : List Char → Bool
  | [] => sub.isEmpty
  | c :: cs => sub.isPrefixOf (c :: cs) || containsChars sub cs

/-- Go `strings.Contains`. -/
def strContains (s sub : String) : Bool := containsChars sub.data s.data

/-- Go `strings.SplitN(s, sep, n)` for a one-character separator and `n > 0`:
at most `n` pieces, the last one holding the unsplit rest. -/
def splitNChars (sep : Char) : Nat → List Char → List (List Char)
  | 0, _ => []
  | 1, s => [s]
  | n + 2, s =>
    if sep ∈ s then
      s.takeWhile (fun c => c != sep) :: splitNChars sep (n + 1) ((s.dropWhile (fun c => c != sep)).drop 1)
    else [s]

/-- Go `strings.SplitN` with a one-character separator. -/
def SplitN (s : String) (sep : Char) (n : Nat) : List String :=
  (splitNChars sep n s.data).map String.mk

/-- Go `matchAnnotations` (main.go). -/
def matchAnnotations (resourceAnnotations : Annotations) (annotationSelector : String) : Bool :=
  if annotationSelector = "" then true
  else
    match SplitN annotationSelector '=' 2 with
    | [key, value] =>
      match resourceAnnotations key with
      | some v => v == value
      | none => false
    | _ => false

/-! ## pods.go -/

/-- One entry of `pod.Status.Conditions`: its `Type` (here `CondType`) and `Status`. -/
structure PodCondition where
  CondType : String
  Status : String

/-- One entry of `pod.Status.ContainerStatuses`: `Ready`, and the `Reason` of
`State.Waiting` when that pointer is not nil. -/
structure ContainerStatus where
  Ready : Bool
  Waiting : Option String

/-- The fields of `corev1.Pod` the checker reads. -/
structure Pod where
  Name : String
  Annotations : Annotations
  Phase : String
  Conditions : List PodCondition
  ContainerStatuses : List ContainerStatus

/-- Go `isPodHealthy` (pods.go). -/
def isPodHealthy (pod : Pod) : Bool :=
  if pod.Conditions.any (fun condition => condition.CondType == "Ready" && condition.Status != "True") then false
  else if pod.ContainerStatuses.any (fun containerStatus => !containerStatus.Ready) then false
  else true

/-- Go `getPodFailureReason` (pods.go): the reason of the first waiting container. -/
def getPodFailureReason (pod : Pod) : String :=
  match pod.ContainerStatuses.findSome? (fun containerStatus => containerStatus.Waiting) with
  | some reason => reason
  | none => "Unknown"

/-- The body of the loop over `pods.Items` in `PodChecker.Check`, acting on
`(*unhealthyChildren, *overallStatus)`. -/
def PodChecker.visit (annotationSelector : String) (acc : List UnhealthyChild × String) (pod : Pod) :
    List UnhealthyChild × String :=
  if !matchAnnotations pod.Annotations annotationSelector then acc
  else if pod.Phase = "Running" then
    if isPodHealthy pod then acc
    else
      (acc.1 ++ [⟨"Pod", pod.Name, pod.Phase,
          "Pod " ++ pod.Name ++ " is in " ++ pod.Phase ++ " state but not all containers are ready",
          "NotAllContainersReady"⟩],
        if acc.2 ≠ "failed" then "deploying" else acc.2)
  else if pod.Phase = "Pending" then
    (acc.1 ++ [⟨"Pod", pod.Name, pod.Phase, "Pod " ++ pod.Name ++ " is in Pending state", "Pending"⟩],
      if acc.2 ≠ "failed" then "deploying" else acc.2)
  else if pod.Phase = "Failed" ∨ pod.Phase = "Unknown" then
    (acc.1 ++ [⟨"Pod", pod.Name, pod.Phase, "Pod " ++ pod.Name ++ " is in " ++ pod.Phase ++ " state",
        getPodFailureReason pod⟩],
      "failed")
  else if pod.Phase = "Succeeded" then acc
  else
    (acc.1 ++ [⟨"Pod", pod.Name, pod.Phase,
        "Pod " ++ pod.Name ++ " is in an unexpected state: " ++ pod.Phase, "Unknown"⟩],
      if acc.2 ≠ "failed" then "deploying" else acc.2)

/-- Go `PodChecker.Check` (pods.go).  `pods` is the answer of the list call; the
result is the error, or the new `(*unhealthyChildren, *overallStatus)`. -/
def PodChecker.Check (pods : Except String (List Pod)) (annotationSelector : String)
    (unhealthyChildren : List UnhealthyChild) (overallStatus : String) :
    Except String (List UnhealthyChild × String) :=
  match pods with
  | .error err => .error ("error listing Pods: " ++ err)
  | .ok items => .ok (items.foldl (PodChecker.visit annotationSelector) (unhealthyChildren, overallStatus))

/-! ## jobs.go -/

/-- One entry of `job.Status.Conditions`: its `Type` (here `CondType`) and `Reason`. -/
structure JobCondition where
  CondType : String
  Reason : String

/-- The fields of `batchv1.Job` the checker reads. -/
structure Job where
  Name : String
  Annotations : Annotations
  Succeeded : Int
  Failed : Int
  Conditions : List JobCondition

/-- Go `getJobFailureReason` (jobs.go). -/
def getJobFailureReason (job : Job) : String :=
  match job.Conditions.find? (fun condition => condition.CondType == "Failed") with
  | some condition => condition.Reason
  | none => "Unknown"

/-- The body of the loop over `jobs.Items` in `JobChecker.Check`. -/
def JobChecker.visit (annotationSelector : String) (acc : List UnhealthyChild × String) (job : Job) :
    List UnhealthyChild × String :=
  let jobFailureThreshold : Int := 3
  if !matchAnnotations job.Annotations annotationSelector then acc
  else if job.Failed ≥ jobFailureThreshold then
    (acc.1 ++ [⟨"Job", job.Name, "Failed",
        "Job " ++ job.Name ++ " has failed " ++ toString job.Failed ++ " times", getJobFailureReason job⟩],
      "failed")
  else if job.Succeeded = 0 then
    (acc.1 ++ [⟨"Job", job.Name, "Pending", "Job " ++ job.Name ++ " is in Pending state",
        getJobFailureReason job⟩],
      if acc.2 ≠ "failed" then "deploying" else acc.2)
  else acc

/-- Go `JobChecker.Check` (jobs.go). -/
def JobChecker.Check (jobs : Except String (List Job)) (annotationSelector : String)
    (unhealthyChildren : List UnhealthyChild) (overallStatus : String) :
    Except String (List UnhealthyChild × String) :=
  match jobs with
  | .error err => .error ("error listing Jobs: " ++ err)
  | .ok items => .ok (items.foldl (JobChecker.visit annotationSelector) (unhealthyChildren, overallStatus))

/-! ## pv.go -/

/-- The fields of `corev1.PersistentVolume` the checker reads. -/
structure PersistentVolume where
  Name : String
  Annotations : Annotations
  Phase : String

/-- The body of the loop over `pvs.Items` in `PVChecker.Check`. -/
def PVChecker.visit (annotationSelector : String) (acc : List UnhealthyChild × String)
    (pv : PersistentVolume) : List UnhealthyChild × String :=
  if !matchAnnotations pv.Annotations annotationSelector then acc
  else if pv.Phase = "Bound" then acc
  else if pv.Phase = "Available" then
    (acc.1 ++ [⟨"PV", pv.Name, pv.Phase, "PV " ++ pv.Name ++ " is Available", "Available"⟩],
      if acc.2 ≠ "failed" then "ready" else acc.2)
  else if pv.Phase = "Failed" then
    (acc.1 ++ [⟨"PV", pv.Name, pv.Phase, "PV " ++ pv.Name ++ " is in Failed state", "Failed"⟩],
      "failed")
  else if pv.Phase = "Released" then
    (acc.1 ++ [⟨"PV", pv.Name, pv.Phase, "PV " ++ pv.Name ++ " is in Released state", "Released"⟩],
      if acc.2 ≠ "failed" then "deploying" else acc.2)
  else
    (acc.1 ++ [⟨"PV", pv.Name, pv.Phase,
        "PV " ++ pv.Name ++ " is in an unexpected state: " ++ pv.Phase, "Unknown"⟩],
      if acc.2 ≠ "failed" then "failed" else acc.2)

/-- Go `PVChecker.Check` (pv.go). -/
def PVChecker.Check (pvs : Except String (List PersistentVolume)) (annotationSelector : String)
    (unhealthyChildren : List UnhealthyChild) (overallStatus : String) :
    Except String (List UnhealthyChild × String) :=
  match pvs with
  | .error err => .error ("error listing PVs: " ++ err)
  | .ok items => .ok (items.foldl (PVChecker.visit annotationSelector) (unhealthyChildren, overallStatus))

/-! ## pvc.go -/

/-- The fields of `corev1.PersistentVolumeClaim` the checker reads. -/
structure PersistentVolumeClaim where
  Name : String
  Annotations : Annotations
  Phase : String

/-- The body of the loop over `pvcs.Items` in `PVCChecker.Check`. -/
def PVCChecker.visit (annotationSelector : String) (acc : List UnhealthyChild × String)
    (pvc : PersistentVolumeClaim) : List UnhealthyChild × String :=
  if !matchAnnotations pvc.Annotations annotationSelector then acc
  else if pvc.Phase = "Bound" then acc
  else if pvc.Phase = "Pending" then
    (acc.1 ++ [⟨"PVC", pvc.Name, pvc.Phase, "PVC " ++ pvc.Name ++ " is Pending", "Pending"⟩],
      if acc.2 ≠ "failed" then "deploying" else acc.2)
  else if pvc.Phase = "Lost" then
    (acc.1 ++ [⟨"PVC", pvc.Name, pvc.Phase, "PVC " ++ pvc.Name ++ " is in Lost state", "Lost"⟩],
      "failed")
  else
    (acc.1 ++ [⟨"PVC", pvc.Name, pvc.Phase,
        "PVC " ++ pvc.Name ++ " is in an unexpected state: " ++ pvc.Phase, "Unknown"⟩],
      "failed")

/-- Go `PVCChecker.Check` (pvc.go). -/
def PVCChecker.Check (pvcs : Except String (List PersistentVolumeClaim)) (annotationSelector : String)
    (unhealthyChildren : List UnhealthyChild) (overallStatus : String) :
    Except String (List UnhealthyChild × String) :=
  match pvcs with
  | .error err => .error ("error listing PVCs: " ++ err)
  | .ok items => .ok (items.foldl (PVCChecker.visit annotationSelector) (unhealthyChildren, overallStatus))

/-! ## main.go: checkHealth -/

/-- The answer of the raw GET of the custom resource (`DoRaw`): an error with its
text, or a body, of which the code only observes whether `json.Unmarshal` and
`json.MarshalIndent` fail on it (and with what text). -/
inductive RawFetch where
  | err (text : String)
  | body (unmarshalErr : Option String) (marshalErr : Option String)

/-- What the Kubernetes API answers during one call of `checkHealth`. -/
structure ApiView where
  customResource : RawFetch
  pods : Except String (List Pod)
  jobs : Except String (List Job)
  pvs : Except String (List PersistentVolume)
  pvcs : Except String (List PersistentVolumeClaim)

/-- The implementations of the Go interface `ResourceChecker` (checker.go). -/
inductive ResourceChecker where
  | PodChecker
  | JobChecker
  | PVChecker
  | PVCChecker
  deriving DecidableEq, Repr

/-- Dynamic dispatch of `checker.Check(...)`. -/
def ResourceChecker.Check (checker : ResourceChecker) (api : ApiView) (annotationSelector : String)
    (unhealthyChildren : List UnhealthyChild) (overallStatus : String) :
    Except String (List UnhealthyChild × String) :=
  match checker with
  | .PodChecker => PodChecker.Check api.pods annotationSelector unhealthyChildren overallStatus
  | .JobChecker => JobChecker.Check api.jobs annotationSelector unhealthyChildren overallStatus
  | .PVChecker => PVChecker.Check api.pvs annotationSelector unhealthyChildren overallStatus
  | .PVCChecker => PVCChecker.Check api.pvcs annotationSelector unhealthyChildren overallStatus

/-- The slice `checkers` of `checkHealth`. -/
def checkers : List ResourceChecker := [.PodChecker, .JobChecker, .PVChecker, .PVCChecker]

/-- The loop `for _, checker := range checkers` of `checkHealth`: the first error
ends it, otherwise the final `(unhealthyChildren, overallStatus)`. -/
def runCheckers (api : ApiView) (annotationSelector : String) :
    List ResourceChecker → List UnhealthyChild × String → Except String (List UnhealthyChild × String)
  | [], acc => .ok acc
  | checker :: rest, acc =>
    match checker.Check api annotationSelector acc.1 acc.2 with
    | .error err => .error err
    | .ok acc' => runCheckers api annotationSelector rest acc'

/-- The final `if isCompleteCheck ...` of `checkHealth`: the published status. -/
def publishedStatus (isCompleteCheck : Bool) (unhealthyChildren : List UnhealthyChild)
    (overallStatus : String) : String :=
  if isCompleteCheck then
    if unhealthyChildren.length > 0 then "deploying"
    else if overallStatus = "ready" then "ready"
    else "deploying"
  else "deploying"

/-- Go `checkHealth` (main.go): the returned pair `(CustomResourceStatus, error)`,
the error being `none` for `nil`. -/
def checkHealth (api : ApiView) (annotationSelector : String) : CustomResourceStatus × Option String :=
  match api.customResource with
  | .err text =>
    if strContains text "not found" then
      (⟨"deploying", [], "Waiting for resource in kubernetes"⟩, none)
    else (⟨"", [], ""⟩, some ("[ERROR] Failed to get custom resource: " ++ text))
  | .body (some e) _ => (⟨"", [], ""⟩, some ("[ERROR] Failed to unmarshal custom resource: " ++ e))
  | .body none (some e) => (⟨"", [], ""⟩, some ("[ERROR] Failed to marshal pretty JSON: " ++ e))
  | .body none none =>
    match runCheckers api annotationSelector checkers ([], "ready") with
    | .error err => (⟨"", [], ""⟩, some err)
    | .ok (unhealthyChildren, overallStatus) =>
      (⟨publishedStatus true unhealthyChildren overallStatus, unhealthyChildren, ""⟩, none)

/-! ## main.go: the status cache and resetHandler -/

/-- The global `statusCache`: Go `map[string]ResourceStatus`. -/
abbrev StatusCache := String → Option ResourceStatus

/-- The assignment `statusCache[key] = status`. -/
def StatusCache.set (cache : StatusCache) (key : String) (status : ResourceStatus) : StatusCache :=
  fun k => if k = key then some status else cache k

/-- The key `fmt.Sprintf("%s/%s/%s/%s/%s", ...)` built by both handlers. -/
def resourceKey (crdGroup crdVersion crdPlural namespace_ name : String) : String :=
  crdGroup ++ "/" ++ crdVersion ++ "/" ++ crdPlural ++ "/" ++ namespace_ ++ "/" ++ name

/-- An HTTP answer: status code and body. -/
structure Response (β : Type) where
  code : Nat
  body : β

/-- Go `resetHandler` (main.go) on the route variables: the new cache and the answer. -/
def resetHandler (statusCache : StatusCache) (crdGroup crdVersion crdPlural namespace_ name : String) :
    StatusCache × Response String :=
  let key := resourceKey crdGroup crdVersion crdPlural namespace_ name
  match statusCache key with
  | some status =>
    let status := { status with ConsecHealthyChecks := 0, ConsecFailedChecks := 0 }
    (statusCache.set key status, ⟨200, "Counters reset for resource: " ++ key⟩)
  | none => (statusCache, ⟨404, "Resource not found: " ++ key⟩)

/-! ## main.go: monitorHealth -/

/-- Two's-complement wrap of an integer to 64 bits (Go `int64` arithmetic). -/
def wrapInt64 (x : Int) : Int := (x + 2 ^ 63) % 2 ^ 64 - 2 ^ 63

/-- The package variables set once by `init` (defaults of main.go; durations in
nanoseconds).  `consecFailed` is assigned by `monitorHealth` and lives in
`Globals`; the limiter settings only shape the outcome of `rateLimiter.Wait`,
which is an input (`PollInput.limiterErr`). -/
structure Config where
  checkInterval : Int := 25000000000
  consecHealthy : Int := 4
  increaseIntervalValue : Int := 15000000000
  readyCheckInterval : Int := 60000000000
  initialDelay : Int := 10000000000

/-- The package variables `monitorHealth` writes. -/
structure Globals where
  statusCache : StatusCache
  consecFailed : Int

/-- The local variables of `monitorHealth`. -/
structure Locals where
  consecutiveHealthyChecks : Int
  consecutiveNotFoundChecks : Int
  failedCheckInterval : Int

/-- What one iteration of the loop of `monitorHealth` receives from outside: the
result of `rateLimiter.Wait`, the API answers, and `time.Now()` for the write. -/
structure PollInput where
  limiterErr : Option String
  api : ApiView
  now : Int

/-- The observable actions of `monitorHealth`. -/
inductive Event where
  | sleep (d : Int)
  | check
  | write (key : String) (status : ResourceStatus)
  deriving DecidableEq, Repr

/-- The three `return` statements of the loop of `monitorHealth`. -/
inductive Stop where
  | limiter
  | failed
  | healthy
  deriving DecidableEq, Repr

/-- The state after one iteration of the loop, the actions it performed, and the
`return` it took, if any. -/
structure Iteration where
  globals : Globals
  locals : Locals
  events : List Event
  stopped : Option Stop

/-- One iteration of the `for` loop of `monitorHealth`. -/
def monitorIteration (cfg : Config) (key annotationSelector : String) (g : Globals) (l : Locals)
    (inp : PollInput) : Iteration :=
  match inp.limiterErr with
  | some _ => ⟨g, l, [], some .limiter⟩
  | none =>
    match checkHealth inp.api annotationSelector with
    | (_, some _) =>
      let consecutiveNotFoundChecks := l.consecutiveNotFoundChecks + 1
      if consecutiveNotFoundChecks ≥ g.consecFailed then
        let status : ResourceStatus :=
          { CustomResourceStatus := ⟨"failed", [], "Resource not found after multiple checks"⟩,
            Timestamp := inp.now }
        ⟨{ g with statusCache := g.statusCache.set key status },
          { l with consecutiveNotFoundChecks := consecutiveNotFoundChecks },
          [.check, .write key status], some .failed⟩
      else
        let failedCheckInterval := wrapInt64 (l.failedCheckInterval + cfg.increaseIntervalValue)
        ⟨g, { l with consecutiveNotFoundChecks := consecutiveNotFoundChecks,
                     failedCheckInterval := failedCheckInterval },
          [.check, .sleep failedCheckInterval], none⟩
    | (newStatus, none) =>
      let status : ResourceStatus := { CustomResourceStatus := newStatus, Timestamp := inp.now }
      let statusCache := g.statusCache.set key status
      let consecutiveHealthyChecks :=
        if newStatus.Status = "ready" then l.consecutiveHealthyChecks + 1 else 0
      let consecFailed := if newStatus.Status = "failed" then 0 else g.consecFailed
      if consecutiveHealthyChecks ≥ cfg.consecHealthy then
        ⟨⟨statusCache, consecFailed⟩,
          ⟨consecutiveHealthyChecks, 0, l.failedCheckInterval⟩,
          [.check, .write key status], some .healthy⟩
      else
        ⟨⟨statusCache, consecFailed⟩,
          ⟨consecutiveHealthyChecks, 0, cfg.checkInterval⟩,
          [.check, .write key status, .sleep cfg.checkInterval], none⟩

/-- A run of `monitorHealth` against finitely many poll inputs: the state reached,
the actions performed, the `return` taken (`none`: the loop is still running and
waits for the next input) and the inputs never consumed. -/
structure MonitorRun where
  globals : Globals
  locals : Locals
  trace : List Event
  stopped : Option Stop
  unconsumed : List PollInput

/-- The `for` loop of `monitorHealth`. -/
def monitorLoop (cfg : Config) (key annotationSelector : String) :
    Globals → Locals → List PollInput → MonitorRun
  | g, l, [] => ⟨g, l, [], none, []⟩
  | g, l, inp :: rest =>
    let it := monitorIteration cfg key annotationSelector g l inp
    match it.stopped with
    | some stop => ⟨it.globals, it.locals, it.events, some stop, rest⟩
    | none =>
      let run := monitorLoop cfg key annotationSelector it.globals it.locals rest
      { run with trace := it.events ++ run.trace }

/-- Go `monitorHealth` (main.go), started on the globals `g`. -/
def monitorHealth (cfg : Config) (g : Globals) (key annotationSelector : String) (initialDelay : Int)
    (inputs : List PollInput) : MonitorRun :=
  let run := monitorLoop cfg key annotationSelector g ⟨0, 0, cfg.checkInterval⟩ inputs
  { run with trace := .sleep initialDelay :: run.trace }

/-! ## main.go: healthHandler -/

/-- Go `time.Since(t)` read at clock `now`: the elapsed time, which `Time.Sub`
saturates to the range of `time.Duration`. -/
def timeSince (now t : Int) : Int := max (-(2 ^ 63)) (min (2 ^ 63 - 1) (now - t))

/-- The arguments of a `go monitorHealth(...)` statement. -/
structure MonitorStart where
  key : String
  crdGroup : String
  crdVersion : String
  crdPlural : String
  namespace_ : String
  name : String
  labelSelector : String
  annotationSelector : String
  initialDelay : Int
  deriving DecidableEq, Repr

/-- What one request to `healthHandler` leaves behind: the cache, the answer written,
and the monitor started, if any. -/
structure HealthResult where
  statusCache : StatusCache
  response : Response CustomResourceStatus
  started : Option MonitorStart

/-- Go `healthHandler` (main.go) on the route variables and the two query parameters;
`now` is the clock read by `time.Since`. -/
def healthHandler (cfg : Config) (statusCache : StatusCache)
    (crdGroup crdVersion crdPlural namespace_ name labelSelector annotationSelector : String)
    (now : Int) : HealthResult :=
  let key := resourceKey crdGroup crdVersion crdPlural namespace_ name
  let start : MonitorStart :=
    ⟨key, crdGroup, crdVersion, crdPlural, namespace_, name, labelSelector, annotationSelector,
      cfg.initialDelay⟩
  match statusCache key with
  | some status =>
    if timeSince now status.Timestamp < cfg.checkInterval then
      ⟨statusCache, ⟨200, status.CustomResourceStatus⟩, none⟩
    else ⟨statusCache, ⟨200, status.CustomResourceStatus⟩, some start⟩
  | none =>
    ⟨statusCache, ⟨202, ⟨"deploying", [], "Initial check in progress"⟩⟩, some start⟩

/-! ## Vocabulary of the properties -/

/-- Position of a severity in the order ready < deploying < failed. -/
def severityRank (s : String) : Nat :=
  if s = "failed" then 2 else if s = "deploying" then 1 else 0

/-- The three values `overallStatus` takes. -/
def isSeverity (s : String) : Prop := s = "ready" ∨ s = "deploying" ∨ s = "failed"

/-- The pair `(*unhealthyChildren, *overallStatus)` the checkers act on. -/
abbrev Acc := List UnhealthyChild × String

/-- Monotonicity of one step: a severity stays a severity and does not decrease. -/
def Raises (a b : Acc) : Prop :=
  isSeverity a.2 → isSeverity b.2 ∧ severityRank a.2 ≤ severityRank b.2

/-- A step keeps severity `failed`. -/
def KeepsFailed (a b : Acc) : Prop := a.2 = "failed" → b.2 = "failed"

/-- A step only appends issues, and changes the severity only if it appends one. -/
def Extends (a b : Acc) : Prop := ∃ extra, b.1 = a.1 ++ extra ∧ (extra = [] → b.2 = a.2)

/-- The guard under which the PV checker is monotone: a volume that passes the
annotation filter is not in phase `Available`. -/
def notAvailable (sel : String) (pv : PersistentVolume) : Prop :=
  matchAnnotations pv.Annotations sel = true → pv.Phase ≠ "Available"

/-- A child whose visit sets the severity to `failed` (seen from severity `ready`),
in one of the four lists of `api`. -/
def hasFailedChild (api : ApiView) (sel : String) : Prop :=
  (∃ items p, api.pods = .ok items ∧ p ∈ items ∧ (PodChecker.visit sel ([], "ready") p).2 = "failed") ∨
  (∃ items j, api.jobs = .ok items ∧ j ∈ items ∧ (JobChecker.visit sel ([], "ready") j).2 = "failed") ∨
  (∃ items v, api.pvs = .ok items ∧ v ∈ items ∧ (PVChecker.visit sel ([], "ready") v).2 = "failed") ∨
  (∃ items c, api.pvcs = .ok items ∧ c ∈ items ∧ (PVCChecker.visit sel ([], "ready") c).2 = "failed")

/-- The limiter lets the poll through and `checkHealth` returns an error. -/
def pollFails (annotationSelector : String) (inp : PollInput) : Bool :=
  inp.limiterErr.isNone && (checkHealth inp.api annotationSelector).2.isSome

/-- The limiter lets the poll through and `checkHealth` returns without error. -/
def pollSucceeds (annotationSelector : String) (inp : PollInput) : Bool :=
  inp.limiterErr.isNone && (checkHealth inp.api annotationSelector).2.isNone

/-- The limiter lets the poll through and `checkHealth` publishes status `ready`. -/
def pollReady (annotationSelector : String) (inp : PollInput) : Bool :=
  pollSucceeds annotationSelector inp && (checkHealth inp.api annotationSelector).1.Status == "ready"

/-- The entry the monitor writes when it gives up on a resource. -/
def failedEntry (now : Int) : ResourceStatus :=
  ⟨⟨"failed", [], "Resource not found after multiple checks"⟩, now, 0, 0⟩

/-! ## Concrete inputs -/

/-- An object without annotations. -/
def noAnnotations : Annotations := fun _ => none

/-- The annotations `tier: db`. -/
def tierDb : Annotations := fun k => if k = "tier" then some "db" else none

/-- A persistent volume in phase `Available`. -/
def pvAvailable : PersistentVolume := ⟨"pv-1", noAnnotations, "Available"⟩

/-- A persistent volume in phase `Released`. -/
def pvReleased : PersistentVolume := ⟨"pv-2", noAnnotations, "Released"⟩

/-- A fetched custom resource whose only child is `pvReleased`. -/
def apiReleasedPV : ApiView := ⟨.body none none, .ok [], .ok [], .ok [pvReleased], .ok []⟩

/-- A pod in phase `Failed` whose only container waits with `CrashLoopBackOff`. -/
def podFailed : Pod := ⟨"web-0", noAnnotations, "Failed", [], [⟨false, some "CrashLoopBackOff"⟩]⟩

/-- A pod in phase `Pending`. -/
def podPending : Pod := ⟨"web-1", noAnnotations, "Pending", [], []⟩

/-- A fetched and decoded custom resource without children of any kind. -/
def apiNoChildren : ApiView := ⟨.body none none, .ok [], .ok [], .ok [], .ok []⟩

/-- A fetched custom resource whose only child is `pvAvailable`. -/
def apiAvailablePV : ApiView := ⟨.body none none, .ok [], .ok [], .ok [pvAvailable], .ok []⟩

/-- A fetched custom resource with a failed pod followed by a pending pod. -/
def apiFailedThenPending : ApiView :=
  ⟨.body none none, .ok [podFailed, podPending], .ok [], .ok [], .ok []⟩

/-- A cache holding one entry, with non-zero counters, under the key `g/v1/widgets/ns/a`. -/
def cacheOne : StatusCache :=
  fun k => if k = "g/v1/widgets/ns/a" then some ⟨⟨"deploying", [], "m"⟩, 17, 2, 1⟩ else none

/-- A poll at clock reading `now` in which the API answers that the custom resource
does not exist. -/
def pollNotFound (now : Int) : PollInput :=
  ⟨none, ⟨.err "widgets.example.com demo not found", .ok [], .ok [], .ok [], .ok []⟩, now⟩

/-- A poll at clock reading `now` in which the API server cannot be reached. -/
def pollRefused (now : Int) : PollInput :=
  ⟨none, ⟨.err "dial tcp 10.0.0.1:443: connect: connection refused", .ok [], .ok [], .ok [], .ok []⟩, now⟩

/-- A poll at clock reading `now` that finds the custom resource without children. -/
def pollNoChildren (now : Int) : PollInput := ⟨none, apiNoChildren, now⟩

/-- The globals at process start with the default `consecFailed = 3` and an empty cache. -/
def startGlobals : Globals := ⟨fun _ => none, 3⟩

/-- The default configuration of main.go. -/
def defaultConfig : Config := {}

/-- A poll at clock reading `now` whose fetched body is not valid JSON. -/
def pollUndecodable (now : Int) : PollInput :=
  ⟨none, ⟨.body (some "unexpected end of JSON input") none, .ok [], .ok [], .ok [], .ok []⟩, now⟩

/-- The answer of a list call with the children that fail the annotation filter removed. -/
def keepMatching {α : Type} (annotations : α → Annotations) (sel : String) :
    Except String (List α) → Except String (List α)
  | .error err => .error err
  | .ok items => .ok (items.filter (fun x => matchAnnotations (annotations x) sel))

/-- The API answers with every child that fails the annotation filter removed. -/
def ApiView.matching (api : ApiView) (sel : String) : ApiView :=
  ⟨api.customResource,
    keepMatching (fun p : Pod => p.Annotations) sel api.pods,
    keepMatching (fun j : Job => j.Annotations) sel api.jobs,
    keepMatching (fun v : PersistentVolume => v.Annotations) sel api.pvs,
    keepMatching (fun c : PersistentVolumeClaim => c.Annotations) sel api.pvcs⟩

/-- A pod in phase `Failed` that carries the annotation `tier: web` only. -/
def podFailedWeb : Pod :=
  ⟨"web-2", fun k => if k = "tier" then some "web" else none, "Failed", [], []⟩

/-- A job that failed three times and never succeeded, with a `Failed` condition. -/
def jobFailedThrice : Job :=
  ⟨"migrate", noAnnotations, 0, 3, [⟨"Complete", "x"⟩, ⟨"Failed", "BackoffLimitExceeded"⟩]⟩

/-- A fetched custom resource whose only child is `jobFailedThrice`. -/
def apiFailedJob : ApiView := ⟨.body none none, .ok [], .ok [jobFailedThrice], .ok [], .ok []⟩

/-- A job with one succeeded pod and three failed pods. -/
def jobSucceededAndFailed : Job := ⟨"import", noAnnotations, 1, 3, []⟩

/-- A job that has not succeeded yet and failed once. -/
def jobStarting : Job := ⟨"seed", noAnnotations, 0, 1, []⟩

/-- A running pod whose only container is ready but whose `Ready` condition is `False`
(for instance a failing readiness gate). -/
def podRunningNotReady : Pod :=
  ⟨"web-3", noAnnotations, "Running", [⟨"Ready", "False"⟩], [⟨true, none⟩]⟩

/-- A running pod with one container that is not ready. -/
def podRunningStarting : Pod :=
  ⟨"web-4", noAnnotations, "Running", [⟨"Ready", "True"⟩], [⟨true, none⟩, ⟨false, none⟩]⟩

/-- The child an issue reports: a child of the right list, named by the issue, whose
phase is the status of the issue; for a job, which has no phase, the status is `Failed`
at or above the failure threshold and `Pending` below it. -/
def issueOrigin (api : ApiView) (i : UnhealthyChild) : Prop :=
  (i.Kind = "Pod" ∧ ∃ items p, api.pods = .ok items ∧ p ∈ items ∧ i.Name = p.Name ∧
    i.Status = p.Phase) ∨
  (i.Kind = "Job" ∧ ∃ items j, api.jobs = .ok items ∧ j ∈ items ∧ i.Name = j.Name ∧
    ((3 ≤ j.Failed ∧ i.Status = "Failed") ∨ (j.Failed < 3 ∧ i.Status = "Pending"))) ∨
  (i.Kind = "PV" ∧ ∃ items v, api.pvs = .ok items ∧ v ∈ items ∧ i.Name = v.Name ∧
    i.Status = v.Phase) ∨
  (i.Kind = "PVC" ∧ ∃ items c, api.pvcs = .ok items ∧ c ∈ items ∧ i.Name = c.Name ∧
    i.Status = c.Phase)

/-- Every issue of `b` is an issue of `a` or satisfies `Q`. -/
def AddsOnly (Q : UnhealthyChild → Prop) (a b : Acc) : Prop := ∀ i ∈ b.1, i ∈ a.1 ∨ Q i

/-- The defaults of main.go with `CONSEC_HEALTHY=2`. -/
def configTwoHealthy : Config := { consecHealthy := 2 }

/-- A poll at clock reading `now` in which the resource is fetched and the pods are
listed, but the list call for jobs fails. -/
def pollJobsListFails (now : Int) : PollInput :=
  ⟨none, ⟨.body none none, .ok [podPending], .error "context deadline exceeded", .ok [], .ok []⟩, now⟩

/-- Every entry of the cache has both counters at 0. -/
def zeroCounters (cache : StatusCache) : Prop :=
  ∀ k st, cache k = some st → st.ConsecHealthyChecks = 0 ∧ st.ConsecFailedChecks = 0

/-- The caches the process reaches from its empty start through loop iterations of
monitors (of any key, in any local state) and through calls of `resetHandler`;
`healthHandler` does not write the cache. -/
inductive Reachable : StatusCache → Prop where
  | start : Reachable (fun _ => none)
  | monitor (cfg : Config) (key sel : String) (cache : StatusCache) (consecFailed : Int)
      (l : Locals) (inp : PollInput) :
      Reachable cache →
      Reachable (monitorIteration cfg key sel ⟨cache, consecFailed⟩ l inp).globals.statusCache
  | reset (cache : StatusCache) (crdGroup crdVersion crdPlural namespace_ name : String) :
      Reachable cache →
      Reachable (resetHandler cache crdGroup crdVersion crdPlural namespace_ name).1

/-- A cache with one entry as the monitor writes it (counters 0). -/
def cacheWritten : StatusCache :=
  (monitorIteration defaultConfig "g/v1/widgets/ns/a" "" startGlobals ⟨0, 0, 25000000000⟩
    (pollNoChildren 5)).globals.statusCache

/-- The defaults of main.go with `INCREASE_INTERVAL_VALUE=4611686018427387904ns` (2^62 ns). -/
def configHugeIncrease : Config := { increaseIntervalValue := 4611686018427387904 }

/-! # Properties -/

/-! ## Helper lemmas -/

theorem takeWhile_ne_append (sep : Char) (k v : List Char) (hk : sep ∉ k) :
    (k ++ sep :: v).takeWhile (fun c => c != sep) = k := by
  induction k with
  | nil => simp [List.takeWhile]
  | cons a t ih =>
    have ha : a ≠ sep := fun h => hk (by simp [h])
    have ht : sep ∉ t := fun h => hk (by simp [h])
    have hb : (a != sep) = true := by simp [ha]
    simp [List.takeWhile, hb, ih ht]

theorem dropWhile_ne_append (sep : Char) (k v : List Char) (hk : sep ∉ k) :
    (k ++ sep :: v).dropWhile (fun c => c != sep) = sep :: v := by
  induction k with
  | nil => simp [List.dropWhile]
  | cons a t ih =>
    have ha : a ≠ sep := fun h => hk (by simp [h])
    have ht : sep ∉ t := fun h => hk (by simp [h])
    have hb : (a != sep) = true := by simp [ha]
    simp [List.dropWhile, hb, ih ht]

theorem splitNChars_two_of_mem (sep : Char) (k v : List Char) (hk : sep ∉ k) :
    splitNChars sep 2 (k ++ sep :: v) = [k, v] := by
  simp [splitNChars, takeWhile_ne_append sep k v hk, dropWhile_ne_append sep k v hk]

theorem splitNChars_two_of_not_mem (sep : Char) (s : List Char) (hs : sep ∉ s) :
    splitNChars sep 2 s = [s] := by
  simp [splitNChars, hs]

theorem SplitN_two_of_mem (k v : String) (hk : '=' ∉ k.data) :
    SplitN (k ++ "=" ++ v) '=' 2 = [k, v] := by
  have h : (k ++ "=" ++ v).data = k.data ++ '=' :: v.data := by
    simp [String.data_append]
  simp [SplitN, h, splitNChars_two_of_mem '=' k.data v.data hk]

theorem SplitN_two_of_not_mem (s : String) (hs : '=' ∉ s.data) :
    SplitN s '=' 2 = [s] := by
  simp [SplitN, splitNChars_two_of_not_mem '=' s.data hs]

theorem foldl_rel {α β : Type} (f : β → α → β) (R : β → β → Prop)
    (hrefl : ∀ b, R b b) (htrans : ∀ a b c, R a b → R b c → R a c) :
    ∀ (l : List α) (b : β), (∀ x ∈ l, ∀ acc, R acc (f acc x)) → R b (l.foldl f b) := by
  intro l
  induction l with
  | nil => intro b _; exact hrefl b
  | cons x t ih =>
    intro b h
    simp only [List.foldl_cons]
    exact htrans _ _ _ (h x (by simp) b) (ih (f b x) (fun y hy acc => h y (by simp [hy]) acc))

theorem Check_rel (R : Acc → Acc → Prop) (G : String → PersistentVolume → Prop)
    (hrefl : ∀ b, R b b) (htrans : ∀ a b c, R a b → R b c → R a c)
    (hpod : ∀ sel acc p, R acc (PodChecker.visit sel acc p))
    (hjob : ∀ sel acc j, R acc (JobChecker.visit sel acc j))
    (hpv : ∀ sel acc pv, G sel pv → R acc (PVChecker.visit sel acc pv))
    (hpvc : ∀ sel acc c, R acc (PVCChecker.visit sel acc c))
    (checker : ResourceChecker) (api : ApiView) (sel : String)
    (hG : ∀ items, api.pvs = .ok items → ∀ pv ∈ items, G sel pv)
    (acc r : Acc) (h : checker.Check api sel acc.1 acc.2 = .ok r) : R acc r := by
  cases checker with
  | PodChecker =>
    simp only [ResourceChecker.Check, PodChecker.Check] at h
    split at h
    · cases h
    · cases h
      exact foldl_rel _ R hrefl htrans _ _ (fun x _ a => hpod sel a x)
  | JobChecker =>
    simp only [ResourceChecker.Check, JobChecker.Check] at h
    split at h
    · cases h
    · cases h
      exact foldl_rel _ R hrefl htrans _ _ (fun x _ a => hjob sel a x)
  | PVChecker =>
    simp only [ResourceChecker.Check, PVChecker.Check] at h
    split at h
    · cases h
    · rename_i items hitems
      cases h
      exact foldl_rel _ R hrefl htrans _ _ (fun x hx a => hpv sel a x (hG items hitems x hx))
  | PVCChecker =>
    simp only [ResourceChecker.Check, PVCChecker.Check] at h
    split at h
    · cases h
    · cases h
      exact foldl_rel _ R hrefl htrans _ _ (fun x _ a => hpvc sel a x)

theorem runCheckers_rel (R : Acc → Acc → Prop) (G : String → PersistentVolume → Prop)
    (hrefl : ∀ b, R b b) (htrans : ∀ a b c, R a b → R b c → R a c)
    (hpod : ∀ sel acc p, R acc (PodChecker.visit sel acc p))
    (hjob : ∀ sel acc j, R acc (JobChecker.visit sel acc j))
    (hpv : ∀ sel acc pv, G sel pv → R acc (PVChecker.visit sel acc pv))
    (hpvc : ∀ sel acc c, R acc (PVCChecker.visit sel acc c))
    (api : ApiView) (sel : String)
    (hG : ∀ items, api.pvs = .ok items → ∀ pv ∈ items, G sel pv) :
    ∀ (cs : List ResourceChecker) (acc r : Acc), runCheckers api sel cs acc = .ok r → R acc r := by
  intro cs
  induction cs with
  | nil =>
    intro acc r h
    simp only [runCheckers] at h
    cases h
    exact hrefl _
  | cons c t ih =>
    intro acc r h
    simp only [runCheckers] at h
    split at h
    · cases h
    · rename_i acc1 hc
      exact htrans _ _ _ (Check_rel R G hrefl htrans hpod hjob hpv hpvc c api sel hG acc acc1 hc)
        (ih acc1 r h)

theorem raises_refl (a : Acc) : Raises a a := fun h => ⟨h, le_refl _⟩

theorem raises_trans (a b c : Acc) (h1 : Raises a b) (h2 : Raises b c) : Raises a c :=
  fun h => ⟨(h2 (h1 h).1).1, le_trans (h1 h).2 (h2 (h1 h).1).2⟩

theorem keepsFailed_refl (a : Acc) : KeepsFailed a a := fun h => h

theorem keepsFailed_trans (a b c : Acc) (h1 : KeepsFailed a b) (h2 : KeepsFailed b c) :
    KeepsFailed a c := fun h => h2 (h1 h)

theorem extends_refl (a : Acc) : Extends a a := ⟨[], by simp, fun _ => rfl⟩

theorem extends_trans (a b c : Acc) (h1 : Extends a b) (h2 : Extends b c) : Extends a c := by
  obtain ⟨e1, h11, h12⟩ := h1
  obtain ⟨e2, h21, h22⟩ := h2
  refine ⟨e1 ++ e2, by rw [h21, h11, List.append_assoc], fun h => ?_⟩
  have he := List.append_eq_nil.mp h
  rw [h22 he.2, h12 he.1]

theorem raises_to_deploying (s : String) (hs : isSeverity s) :
    isSeverity (if s ≠ "failed" then "deploying" else s) ∧
      severityRank s ≤ severityRank (if s ≠ "failed" then "deploying" else s) := by
  rcases hs with h | h | h <;> subst h <;> simp [isSeverity, severityRank]

theorem raises_to_failed (s : String) (hs : isSeverity s) :
    isSeverity "failed" ∧ severityRank s ≤ severityRank "failed" := by
  rcases hs with h | h | h <;> subst h <;> simp [isSeverity, severityRank]

theorem podVisit_raises (sel : String) (acc : Acc) (p : Pod) :
    Raises acc (PodChecker.visit sel acc p) := by
  intro hs
  unfold PodChecker.visit
  split_ifs <;>
    first
      | exact ⟨hs, le_refl _⟩
      | exact raises_to_deploying _ hs
      | exact raises_to_failed _ hs
      | (rcases hs with h | h | h <;> simp_all [isSeverity, severityRank])

theorem jobVisit_raises (sel : String) (acc : Acc) (j : Job) :
    Raises acc (JobChecker.visit sel acc j) := by
  intro hs
  unfold JobChecker.visit
  simp only
  split_ifs <;>
    first
      | exact ⟨hs, le_refl _⟩
      | exact raises_to_deploying _ hs
      | exact raises_to_failed _ hs
      | (rcases hs with h | h | h <;> simp_all [isSeverity, severityRank])

theorem pvVisit_raises (sel : String) (acc : Acc) (pv : PersistentVolume)
    (hg : notAvailable sel pv) : Raises acc (PVChecker.visit sel acc pv) := by
  intro hs
  unfold PVChecker.visit
  split_ifs with h1 h2 h3 h4 h5 <;>
    first
      | exact ⟨hs, le_refl _⟩
      | exact raises_to_deploying _ hs
      | exact raises_to_failed _ hs
      | (exfalso; exact hg (by simpa using h1) h3)
      | (rcases hs with h | h | h <;> simp_all [isSeverity, severityRank])

theorem pvcVisit_raises (sel : String) (acc : Acc) (c : PersistentVolumeClaim) :
    Raises acc (PVCChecker.visit sel acc c) := by
  intro hs
  unfold PVCChecker.visit
  split_ifs <;>
    first
      | exact ⟨hs, le_refl _⟩
      | exact raises_to_deploying _ hs
      | exact raises_to_failed _ hs
      | (rcases hs with h | h | h <;> simp_all [isSeverity, severityRank])

theorem podVisit_keepsFailed (sel : String) (acc : Acc) (p : Pod) :
    KeepsFailed acc (PodChecker.visit sel acc p) := by
  intro hs
  unfold PodChecker.visit
  split_ifs <;> simp_all

theorem jobVisit_keepsFailed (sel : String) (acc : Acc) (j : Job) :
    KeepsFailed acc (JobChecker.visit sel acc j) := by
  intro hs
  unfold JobChecker.visit
  simp only
  split_ifs <;> simp_all

theorem pvVisit_keepsFailed (sel : String) (acc : Acc) (pv : PersistentVolume) :
    KeepsFailed acc (PVChecker.visit sel acc pv) := by
  intro hs
  unfold PVChecker.visit
  split_ifs <;> simp_all

theorem pvcVisit_keepsFailed (sel : String) (acc : Acc) (c : PersistentVolumeClaim) :
    KeepsFailed acc (PVCChecker.visit sel acc c) := by
  intro hs
  unfold PVCChecker.visit
  split_ifs <;> simp_all

theorem extends_append (acc : Acc) (x : UnhealthyChild) (s : String) :
    Extends acc (acc.1 ++ [x], s) := ⟨[x], rfl, fun h => by simp at h⟩

theorem podVisit_extends (sel : String) (acc : Acc) (p : Pod) :
    Extends acc (PodChecker.visit sel acc p) := by
  unfold PodChecker.visit
  split_ifs <;> first | exact extends_refl _ | exact extends_append _ _ _

theorem jobVisit_extends (sel : String) (acc : Acc) (j : Job) :
    Extends acc (JobChecker.visit sel acc j) := by
  unfold JobChecker.visit
  simp only
  split_ifs <;> first | exact extends_refl _ | exact extends_append _ _ _

theorem pvVisit_extends (sel : String) (acc : Acc) (pv : PersistentVolume) :
    Extends acc (PVChecker.visit sel acc pv) := by
  unfold PVChecker.visit
  split_ifs <;> first | exact extends_refl _ | exact extends_append _ _ _

theorem pvcVisit_extends (sel : String) (acc : Acc) (c : PersistentVolumeClaim) :
    Extends acc (PVCChecker.visit sel acc c) := by
  unfold PVCChecker.visit
  split_ifs <;> first | exact extends_refl _ | exact extends_append _ _ _

theorem foldl_reaches_failed {α : Type} (f : Acc → α → Acc)
    (hkeep : ∀ acc x, KeepsFailed acc (f acc x)) (x : α) (hx : ∀ acc, (f acc x).2 = "failed") :
    ∀ (l : List α) (b : Acc), x ∈ l → (l.foldl f b).2 = "failed" := by
  intro l
  induction l with
  | nil => intro b h; simp at h
  | cons y t ih =>
    intro b h
    simp only [List.foldl_cons]
    rcases List.mem_cons.mp h with h | h
    · subst h
      exact foldl_rel f KeepsFailed keepsFailed_refl keepsFailed_trans t (f b x)
        (fun z _ acc => hkeep acc z) (hx b)
    · exact ih (f b y) h

theorem podVisit_failed_any (sel : String) (p : Pod)
    (h : (PodChecker.visit sel ([], "ready") p).2 = "failed") (acc : Acc) :
    (PodChecker.visit sel acc p).2 = "failed" := by
  unfold PodChecker.visit at h ⊢
  split_ifs at h ⊢ <;> simp_all

theorem jobVisit_failed_any (sel : String) (j : Job)
    (h : (JobChecker.visit sel ([], "ready") j).2 = "failed") (acc : Acc) :
    (JobChecker.visit sel acc j).2 = "failed" := by
  unfold JobChecker.visit at h ⊢
  simp only at h ⊢
  split_ifs at h ⊢ <;> simp_all

theorem pvVisit_failed_any (sel : String) (v : PersistentVolume)
    (h : (PVChecker.visit sel ([], "ready") v).2 = "failed") (acc : Acc) :
    (PVChecker.visit sel acc v).2 = "failed" := by
  unfold PVChecker.visit at h ⊢
  split_ifs at h ⊢ <;> simp_all

theorem pvcVisit_failed_any (sel : String) (c : PersistentVolumeClaim)
    (h : (PVCChecker.visit sel ([], "ready") c).2 = "failed") (acc : Acc) :
    (PVCChecker.visit sel acc c).2 = "failed" := by
  unfold PVCChecker.visit at h ⊢
  split_ifs at h ⊢ <;> simp_all

theorem Check_keepsFailed (checker : ResourceChecker) (api : ApiView) (sel : String) (acc r : Acc)
    (h : checker.Check api sel acc.1 acc.2 = .ok r) : KeepsFailed acc r :=
  Check_rel KeepsFailed (fun _ _ => True) keepsFailed_refl keepsFailed_trans
    (fun s a p => podVisit_keepsFailed s a p) (fun s a j => jobVisit_keepsFailed s a j)
    (fun s a v _ => pvVisit_keepsFailed s a v) (fun s a c => pvcVisit_keepsFailed s a c)
    checker api sel (fun _ _ _ _ => trivial) acc r h

theorem runCheckers_keepsFailed (api : ApiView) (sel : String) (cs : List ResourceChecker)
    (acc r : Acc) (h : runCheckers api sel cs acc = .ok r) : KeepsFailed acc r :=
  runCheckers_rel KeepsFailed (fun _ _ => True) keepsFailed_refl keepsFailed_trans
    (fun s a p => podVisit_keepsFailed s a p) (fun s a j => jobVisit_keepsFailed s a j)
    (fun s a v _ => pvVisit_keepsFailed s a v) (fun s a c => pvcVisit_keepsFailed s a c)
    api sel (fun _ _ _ _ => trivial) cs acc r h

theorem runCheckers_extends (api : ApiView) (sel : String) (cs : List ResourceChecker)
    (acc r : Acc) (h : runCheckers api sel cs acc = .ok r) : Extends acc r :=
  runCheckers_rel Extends (fun _ _ => True) extends_refl extends_trans
    (fun s a p => podVisit_extends s a p) (fun s a j => jobVisit_extends s a j)
    (fun s a v _ => pvVisit_extends s a v) (fun s a c => pvcVisit_extends s a c)
    api sel (fun _ _ _ _ => trivial) cs acc r h

/-- The four steps of a pass that ran to its end. -/
theorem runCheckers_checkers (api : ApiView) (sel : String) (acc r : Acc)
    (h : runCheckers api sel checkers acc = .ok r) :
    ∃ a1 a2 a3 : Acc,
      PodChecker.Check api.pods sel acc.1 acc.2 = .ok a1 ∧
      JobChecker.Check api.jobs sel a1.1 a1.2 = .ok a2 ∧
      PVChecker.Check api.pvs sel a2.1 a2.2 = .ok a3 ∧
      PVCChecker.Check api.pvcs sel a3.1 a3.2 = .ok r := by
  simp only [checkers, runCheckers, ResourceChecker.Check] at h
  split at h
  · cases h
  · rename_i a1 h1
    split at h
    · cases h
    · rename_i a2 h2
      split at h
      · cases h
      · rename_i a3 h3
        split at h
        · cases h
        · rename_i a4 h4
          cases h
          exact ⟨a1, a2, a3, h1, h2, h3, h4⟩

/-- A pass whose four list calls succeed runs to its end. -/
theorem runCheckers_ok (api : ApiView) (sel : String) (acc : Acc)
    (pods : List Pod) (jobs : List Job) (pvs : List PersistentVolume) (pvcs : List PersistentVolumeClaim)
    (hpods : api.pods = .ok pods) (hjobs : api.jobs = .ok jobs) (hpvs : api.pvs = .ok pvs)
    (hpvcs : api.pvcs = .ok pvcs) :
    runCheckers api sel checkers acc =
      .ok (pvcs.foldl (PVCChecker.visit sel) (pvs.foldl (PVChecker.visit sel)
        (jobs.foldl (JobChecker.visit sel) (pods.foldl (PodChecker.visit sel) acc)))) := by
  simp [checkers, runCheckers, ResourceChecker.Check, PodChecker.Check, JobChecker.Check,
    PVChecker.Check, PVCChecker.Check, hpods, hjobs, hpvs, hpvcs]

theorem runCheckers_failed_of_child (api : ApiView) (sel : String) (acc r : Acc)
    (h : runCheckers api sel checkers acc = .ok r) (hc : hasFailedChild api sel) :
    r.2 = "failed" := by
  obtain ⟨a1, a2, a3, h1, h2, h3, h4⟩ := runCheckers_checkers api sel acc r h
  have k2 : KeepsFailed a1 a2 := Check_keepsFailed .JobChecker api sel a1 a2 h2
  have k3 : KeepsFailed a2 a3 := Check_keepsFailed .PVChecker api sel a2 a3 h3
  have k4 : KeepsFailed a3 r := Check_keepsFailed .PVCChecker api sel a3 r h4
  rcases hc with ⟨items, p, hi, hp, hf⟩ | ⟨items, j, hi, hj, hf⟩ | ⟨items, v, hi, hv, hf⟩ |
      ⟨items, c, hi, hc, hf⟩
  · simp only [PodChecker.Check, hi] at h1
    cases h1
    exact k4 (k3 (k2 (foldl_reaches_failed _ (fun a x => podVisit_keepsFailed sel a x) p
      (podVisit_failed_any sel p hf) items _ hp)))
  · simp only [JobChecker.Check, hi] at h2
    cases h2
    exact k4 (k3 (foldl_reaches_failed _ (fun a x => jobVisit_keepsFailed sel a x) j
      (jobVisit_failed_any sel j hf) items _ hj))
  · simp only [PVChecker.Check, hi] at h3
    cases h3
    exact k4 (foldl_reaches_failed _ (fun a x => pvVisit_keepsFailed sel a x) v
      (pvVisit_failed_any sel v hf) items _ hv)
  · simp only [PVCChecker.Check, hi] at h4
    cases h4
    exact foldl_reaches_failed _ (fun a x => pvcVisit_keepsFailed sel a x) c
      (pvcVisit_failed_any sel c hf) items _ hc

/-- Starting a pass from no issue and severity `ready`: no issue at the end means
severity `ready` at the end. -/
theorem runCheckers_nil_ready (api : ApiView) (sel : String) (cs : List ResourceChecker) (r : Acc)
    (h : runCheckers api sel cs ([], "ready") = .ok r) (hr : r.1 = []) : r.2 = "ready" := by
  obtain ⟨extra, h1, h2⟩ := runCheckers_extends api sel cs _ r h
  simp only [List.nil_append] at h1
  exact h2 (by rw [← h1]; exact hr)

theorem publishedStatus_of_pass (api : ApiView) (sel : String) (cs : List ResourceChecker) (r : Acc)
    (h : runCheckers api sel cs ([], "ready") = .ok r) :
    publishedStatus true r.1 r.2 = if r.1 = [] then "ready" else "deploying" := by
  unfold publishedStatus
  by_cases hr : r.1 = []
  · simp [hr, runCheckers_nil_ready api sel cs r h hr]
  · have : 0 < r.1.length := List.length_pos.mpr hr
    simp [hr, this]

/-- The result of `checkHealth` once the resource is fetched and decoded. -/
theorem checkHealth_body (api : ApiView) (sel : String) (h : api.customResource = .body none none) :
    checkHealth api sel =
      match runCheckers api sel checkers ([], "ready") with
      | .error err => (⟨"", [], ""⟩, some err)
      | .ok r => (⟨publishedStatus true r.1 r.2, r.1, ""⟩, none) := by
  unfold checkHealth
  rw [h]
  simp only
  cases runCheckers api sel checkers ([], "ready") with
  | error e => rfl
  | ok r => rfl

/-- Whatever `checkHealth` returns without error is `ready` with no detail or
`deploying`. -/
theorem checkHealth_status (api : ApiView) (sel : String) (st : CustomResourceStatus)
    (h : checkHealth api sel = (st, none)) :
    (st.Status = "ready" ∧ st.Details = []) ∨ st.Status = "deploying" := by
  cases hf : api.customResource with
  | err text =>
    unfold checkHealth at h
    rw [hf] at h
    simp only at h
    split_ifs at h
    · cases h
      right; rfl
    · cases h
  | body u m =>
    cases u with
    | some e => unfold checkHealth at h; rw [hf] at h; cases h
    | none =>
      cases m with
      | some e => unfold checkHealth at h; rw [hf] at h; cases h
      | none =>
        rw [checkHealth_body api sel hf] at h
        cases hr : runCheckers api sel checkers ([], "ready") with
        | error e => rw [hr] at h; cases h
        | ok r =>
          rw [hr] at h
          simp only [Prod.mk.injEq, and_true] at h
          subst h
          simp only
          rw [publishedStatus_of_pass api sel checkers r hr]
          by_cases h0 : r.1 = []
          · left; simp [h0]
          · right; simp [h0]

theorem Check_raises (checker : ResourceChecker) (api : ApiView) (sel : String) (acc r : Acc)
    (hpv : ∀ items, api.pvs = .ok items → ∀ pv ∈ items, notAvailable sel pv)
    (h : checker.Check api sel acc.1 acc.2 = .ok r) : Raises acc r :=
  Check_rel Raises notAvailable raises_refl raises_trans
    (fun s a p => podVisit_raises s a p) (fun s a j => jobVisit_raises s a j)
    (fun s a v hv => pvVisit_raises s a v hv) (fun s a c => pvcVisit_raises s a c)
    checker api sel hpv acc r h

theorem runCheckers_raises (api : ApiView) (sel : String) (cs : List ResourceChecker) (acc r : Acc)
    (hpv : ∀ items, api.pvs = .ok items → ∀ pv ∈ items, notAvailable sel pv)
    (h : runCheckers api sel cs acc = .ok r) : Raises acc r :=
  runCheckers_rel Raises notAvailable raises_refl raises_trans
    (fun s a p => podVisit_raises s a p) (fun s a j => jobVisit_raises s a j)
    (fun s a v hv => pvVisit_raises s a v hv) (fun s a c => pvcVisit_raises s a c)
    api sel hpv cs acc r h

/-- The Pod, Job and PVC checkers do not read the list of persistent volumes. -/
theorem Check_without_pvs (checker : ResourceChecker) (hc : checker ≠ .PVChecker) (api : ApiView)
    (sel : String) (issues : List UnhealthyChild) (s : String) :
    checker.Check api sel issues s =
      checker.Check ⟨api.customResource, api.pods, api.jobs, .ok [], api.pvcs⟩ sel issues s := by
  cases checker with
  | PVChecker => exact absurd rfl hc
  | PodChecker => rfl
  | JobChecker => rfl
  | PVCChecker => rfl

/-! ### One iteration of the monitor loop -/

theorem monitorIteration_fails (cfg : Config) (key sel : String) (g : Globals) (l : Locals)
    (inp : PollInput) (h : pollFails sel inp = true) :
    monitorIteration cfg key sel g l inp =
      if l.consecutiveNotFoundChecks + 1 ≥ g.consecFailed then
        ⟨⟨g.statusCache.set key (failedEntry inp.now), g.consecFailed⟩,
          ⟨l.consecutiveHealthyChecks, l.consecutiveNotFoundChecks + 1, l.failedCheckInterval⟩,
          [.check, .write key (failedEntry inp.now)], some .failed⟩
      else
        ⟨g, ⟨l.consecutiveHealthyChecks, l.consecutiveNotFoundChecks + 1,
            wrapInt64 (l.failedCheckInterval + cfg.increaseIntervalValue)⟩,
          [.check, .sleep (wrapInt64 (l.failedCheckInterval + cfg.increaseIntervalValue))], none⟩ := by
  simp only [pollFails, Bool.and_eq_true, Option.isNone_iff_eq_none, Option.isSome_iff_exists] at h
  obtain ⟨hl, e, he⟩ := h
  unfold monitorIteration
  rw [hl]
  simp only
  have hc : checkHealth inp.api sel = ((checkHealth inp.api sel).1, some e) := by
    rw [← he]
  rw [hc]
  simp only [failedEntry]

theorem monitorIteration_succeeds (cfg : Config) (key sel : String) (g : Globals) (l : Locals)
    (inp : PollInput) (h : pollSucceeds sel inp = true) :
    monitorIteration cfg key sel g l inp =
      if (if (checkHealth inp.api sel).1.Status = "ready" then l.consecutiveHealthyChecks + 1 else 0)
          ≥ cfg.consecHealthy then
        ⟨⟨g.statusCache.set key ⟨(checkHealth inp.api sel).1, inp.now, 0, 0⟩, g.consecFailed⟩,
          ⟨if (checkHealth inp.api sel).1.Status = "ready" then l.consecutiveHealthyChecks + 1 else 0,
            0, l.failedCheckInterval⟩,
          [.check, .write key ⟨(checkHealth inp.api sel).1, inp.now, 0, 0⟩], some .healthy⟩
      else
        ⟨⟨g.statusCache.set key ⟨(checkHealth inp.api sel).1, inp.now, 0, 0⟩, g.consecFailed⟩,
          ⟨if (checkHealth inp.api sel).1.Status = "ready" then l.consecutiveHealthyChecks + 1 else 0,
            0, cfg.checkInterval⟩,
          [.check, .write key ⟨(checkHealth inp.api sel).1, inp.now, 0, 0⟩, .sleep cfg.checkInterval],
          none⟩ := by
  simp only [pollSucceeds, Bool.and_eq_true, Option.isNone_iff_eq_none] at h
  obtain ⟨hl, he⟩ := h
  have hc : checkHealth inp.api sel = ((checkHealth inp.api sel).1, none) := by
    rw [← he]
  have hnf : (checkHealth inp.api sel).1.Status ≠ "failed" := by
    rcases checkHealth_status inp.api sel _ hc with h1 | h1
    · rw [h1.1]; decide
    · rw [h1]; decide
  unfold monitorIteration
  rw [hl]
  simp only
  generalize checkHealth inp.api sel = res at hc hnf
  obtain ⟨st, err⟩ := res
  simp only [Prod.mk.injEq, true_and] at hc
  subst hc
  simp only [if_neg hnf]

theorem poll_cases (sel : String) (inp : PollInput) :
    (∃ e, inp.limiterErr = some e) ∨ pollFails sel inp = true ∨ pollSucceeds sel inp = true := by
  cases hl : inp.limiterErr with
  | some e => exact Or.inl ⟨e, rfl⟩
  | none =>
    right
    cases he : (checkHealth inp.api sel).2 with
    | some e => left; simp [pollFails, hl, he]
    | none => right; simp [pollSucceeds, hl, he]

theorem monitorIteration_limiter (cfg : Config) (key sel : String) (g : Globals) (l : Locals)
    (inp : PollInput) (e : String) (h : inp.limiterErr = some e) :
    monitorIteration cfg key sel g l inp = ⟨g, l, [], some .limiter⟩ := by
  unfold monitorIteration
  rw [h]

theorem monitorIteration_consecFailed (cfg : Config) (key sel : String) (g : Globals) (l : Locals)
    (inp : PollInput) :
    (monitorIteration cfg key sel g l inp).globals.consecFailed = g.consecFailed := by
  rcases poll_cases sel inp with ⟨e, h⟩ | h | h
  · rw [monitorIteration_limiter cfg key sel g l inp e h]
  · rw [monitorIteration_fails cfg key sel g l inp h]
    split_ifs <;> rfl
  · rw [monitorIteration_succeeds cfg key sel g l inp h]
    split_ifs <;> rfl

/-! ### The monitor loop -/

theorem monitorLoop_cons_stop (cfg : Config) (key sel : String) (g : Globals) (l : Locals)
    (inp : PollInput) (rest : List PollInput) (s : Stop)
    (h : (monitorIteration cfg key sel g l inp).stopped = some s) :
    monitorLoop cfg key sel g l (inp :: rest) =
      ⟨(monitorIteration cfg key sel g l inp).globals, (monitorIteration cfg key sel g l inp).locals,
        (monitorIteration cfg key sel g l inp).events, some s, rest⟩ := by
  simp only [monitorLoop, h]

theorem monitorLoop_cons_continue (cfg : Config) (key sel : String) (g : Globals) (l : Locals)
    (inp : PollInput) (rest : List PollInput)
    (h : (monitorIteration cfg key sel g l inp).stopped = none) :
    monitorLoop cfg key sel g l (inp :: rest) =
      { monitorLoop cfg key sel (monitorIteration cfg key sel g l inp).globals
          (monitorIteration cfg key sel g l inp).locals rest with
        trace := (monitorIteration cfg key sel g l inp).events ++
          (monitorLoop cfg key sel (monitorIteration cfg key sel g l inp).globals
            (monitorIteration cfg key sel g l inp).locals rest).trace } := by
  simp only [monitorLoop, h]

/-- A run that stops inside `pre` never looks at what follows `pre`. -/
theorem monitorLoop_append_stopped (cfg : Config) (key sel : String) (xs : List PollInput) :
    ∀ (pre : List PollInput) (g : Globals) (l : Locals) (s : Stop),
      (monitorLoop cfg key sel g l pre).stopped = some s →
      monitorLoop cfg key sel g l (pre ++ xs) =
        { monitorLoop cfg key sel g l pre with
          unconsumed := (monitorLoop cfg key sel g l pre).unconsumed ++ xs } := by
  intro pre
  induction pre with
  | nil => intro g l s h; simp [monitorLoop] at h
  | cons inp t ih =>
    intro g l s h
    cases hs : (monitorIteration cfg key sel g l inp).stopped with
    | some s1 =>
      rw [List.cons_append, monitorLoop_cons_stop cfg key sel g l inp _ s1 hs,
        monitorLoop_cons_stop cfg key sel g l inp _ s1 hs]
    | none =>
      rw [monitorLoop_cons_continue cfg key sel g l inp _ hs] at h
      rw [List.cons_append, monitorLoop_cons_continue cfg key sel g l inp _ hs,
        monitorLoop_cons_continue cfg key sel g l inp _ hs, ih _ _ s h]

/-- A run still going after `pre` continues on what follows from the state it reached. -/
theorem monitorLoop_append_running (cfg : Config) (key sel : String) (xs : List PollInput) :
    ∀ (pre : List PollInput) (g : Globals) (l : Locals),
      (monitorLoop cfg key sel g l pre).stopped = none →
      monitorLoop cfg key sel g l (pre ++ xs) =
        { monitorLoop cfg key sel (monitorLoop cfg key sel g l pre).globals
            (monitorLoop cfg key sel g l pre).locals xs with
          trace := (monitorLoop cfg key sel g l pre).trace ++
            (monitorLoop cfg key sel (monitorLoop cfg key sel g l pre).globals
              (monitorLoop cfg key sel g l pre).locals xs).trace } := by
  intro pre
  induction pre with
  | nil => intro g l _; simp [monitorLoop]
  | cons inp t ih =>
    intro g l h
    cases hs : (monitorIteration cfg key sel g l inp).stopped with
    | some s1 =>
      rw [monitorLoop_cons_stop cfg key sel g l inp _ s1 hs] at h
      cases h
    | none =>
      rw [monitorLoop_cons_continue cfg key sel g l inp _ hs] at h
      rw [List.cons_append, monitorLoop_cons_continue cfg key sel g l inp _ hs,
        monitorLoop_cons_continue cfg key sel g l inp _ hs, ih _ _ h]
      simp [List.append_assoc]

theorem monitorLoop_consecFailed (cfg : Config) (key sel : String) :
    ∀ (xs : List PollInput) (g : Globals) (l : Locals),
      (monitorLoop cfg key sel g l xs).globals.consecFailed = g.consecFailed := by
  intro xs
  induction xs with
  | nil => intro g l; rfl
  | cons inp t ih =>
    intro g l
    cases hs : (monitorIteration cfg key sel g l inp).stopped with
    | some s1 =>
      rw [monitorLoop_cons_stop cfg key sel g l inp _ s1 hs]
      exact monitorIteration_consecFailed cfg key sel g l inp
    | none =>
      rw [monitorLoop_cons_continue cfg key sel g l inp _ hs]
      simp only
      rw [ih, monitorIteration_consecFailed]

/-- The inputs a run leaves unconsumed are never more than it was given. -/
theorem monitorLoop_unconsumed_le (cfg : Config) (key sel : String) :
    ∀ (xs : List PollInput) (g : Globals) (l : Locals),
      (monitorLoop cfg key sel g l xs).unconsumed.length ≤ xs.length := by
  intro xs
  induction xs with
  | nil => intro g l; simp [monitorLoop]
  | cons inp t ih =>
    intro g l
    cases hs : (monitorIteration cfg key sel g l inp).stopped with
    | some s1 =>
      rw [monitorLoop_cons_stop cfg key sel g l inp _ s1 hs]
      simp
    | none =>
      rw [monitorLoop_cons_continue cfg key sel g l inp _ hs]
      simp only [List.length_cons]
      exact Nat.le_succ_of_le (ih _ _)

theorem monitorIteration_nonneg (cfg : Config) (key sel : String) (g : Globals) (l : Locals)
    (inp : PollInput) (h : 0 ≤ l.consecutiveHealthyChecks ∧ 0 ≤ l.consecutiveNotFoundChecks) :
    0 ≤ (monitorIteration cfg key sel g l inp).locals.consecutiveHealthyChecks ∧
      0 ≤ (monitorIteration cfg key sel g l inp).locals.consecutiveNotFoundChecks := by
  obtain ⟨h1, h2⟩ := h
  rcases poll_cases sel inp with ⟨e, h⟩ | h | h
  · rw [monitorIteration_limiter cfg key sel g l inp e h]
    exact ⟨h1, h2⟩
  · rw [monitorIteration_fails cfg key sel g l inp h]
    split_ifs <;> exact ⟨h1, by simp only; omega⟩
  · rw [monitorIteration_succeeds cfg key sel g l inp h]
    split_ifs <;> simp only <;> omega

theorem monitorLoop_nonneg (cfg : Config) (key sel : String) :
    ∀ (xs : List PollInput) (g : Globals) (l : Locals),
      0 ≤ l.consecutiveHealthyChecks ∧ 0 ≤ l.consecutiveNotFoundChecks →
      0 ≤ (monitorLoop cfg key sel g l xs).locals.consecutiveHealthyChecks ∧
        0 ≤ (monitorLoop cfg key sel g l xs).locals.consecutiveNotFoundChecks := by
  intro xs
  induction xs with
  | nil => intro g l h; exact h
  | cons inp t ih =>
    intro g l h
    have hit := monitorIteration_nonneg cfg key sel g l inp h
    cases hs : (monitorIteration cfg key sel g l inp).stopped with
    | some s1 =>
      rw [monitorLoop_cons_stop cfg key sel g l inp _ s1 hs]
      exact hit
    | none =>
      rw [monitorLoop_cons_continue cfg key sel g l inp _ hs]
      exact ih _ _ hit

/-- Enough failing polls in a row end the loop through the escalation write. -/
theorem monitorLoop_fails_run (cfg : Config) (key sel : String) (post : List PollInput) :
    ∀ (run : List PollInput) (g : Globals) (l : Locals),
      (∀ inp ∈ run, pollFails sel inp = true) → run ≠ [] →
      g.consecFailed ≤ l.consecutiveNotFoundChecks + run.length →
      (monitorLoop cfg key sel g l (run ++ post)).stopped = some .failed ∧
      post.length ≤ (monitorLoop cfg key sel g l (run ++ post)).unconsumed.length ∧
      (∃ inp ∈ run, ∃ front,
        (monitorLoop cfg key sel g l (run ++ post)).globals.statusCache key =
          some (failedEntry inp.now) ∧
        (monitorLoop cfg key sel g l (run ++ post)).trace =
          front ++ [.write key (failedEntry inp.now)]) ∧
      (l.consecutiveNotFoundChecks + run.length = g.consecFailed →
        (monitorLoop cfg key sel g l (run ++ post)).unconsumed = post) := by
  intro run
  induction run with
  | nil => intro g l _ h; exact absurd rfl h
  | cons inp t ih =>
    intro g l hall _ hlen
    have hf := hall inp (by simp)
    have hit := monitorIteration_fails cfg key sel g l inp hf
    by_cases hge : l.consecutiveNotFoundChecks + 1 ≥ g.consecFailed
    · rw [if_pos hge] at hit
      have hs : (monitorIteration cfg key sel g l inp).stopped = some .failed := by rw [hit]
      rw [List.cons_append, monitorLoop_cons_stop cfg key sel g l inp _ _ hs, hit]
      refine ⟨rfl, by simp, ⟨inp, by simp, [.check], ?_, rfl⟩, ?_⟩
      · simp [StatusCache.set]
      · intro heq
        simp only [List.length_cons, Nat.cast_add, Nat.cast_one] at heq
        have : t.length = 0 := by omega
        simp [List.length_eq_zero.mp this]
    · rw [if_neg hge] at hit
      have hs : (monitorIteration cfg key sel g l inp).stopped = none := by rw [hit]
      rw [List.cons_append, monitorLoop_cons_continue cfg key sel g l inp _ hs, hit]
      simp only [List.length_cons, Nat.cast_add, Nat.cast_one] at hlen
      have ht : t ≠ [] := by
        intro h0
        rw [h0] at hlen
        simp at hlen
        omega
      obtain ⟨h1, h2, ⟨i, hi, front, h3, h4⟩, h5⟩ :=
        ih g ⟨l.consecutiveHealthyChecks, l.consecutiveNotFoundChecks + 1,
          wrapInt64 (l.failedCheckInterval + cfg.increaseIntervalValue)⟩
          (fun x hx => hall x (by simp [hx])) ht (by simp only; omega)
      refine ⟨h1, h2, ⟨i, by simp [hi],
        [.check, .sleep (wrapInt64 (l.failedCheckInterval + cfg.increaseIntervalValue))] ++ front,
        h3, ?_⟩, ?_⟩
      · simp only [h4, List.append_assoc]
      · intro heq
        simp only [List.length_cons, Nat.cast_add, Nat.cast_one] at heq
        exact h5 (by simp only; omega)

/-- Enough polls in a row that publish `ready` end the loop through the healthy return. -/
theorem monitorLoop_ready_run (cfg : Config) (key sel : String) (post : List PollInput) :
    ∀ (run : List PollInput) (g : Globals) (l : Locals),
      (∀ inp ∈ run, pollReady sel inp = true) → run ≠ [] →
      cfg.consecHealthy ≤ l.consecutiveHealthyChecks + run.length →
      (monitorLoop cfg key sel g l (run ++ post)).stopped = some .healthy ∧
      post.length ≤ (monitorLoop cfg key sel g l (run ++ post)).unconsumed.length ∧
      (∃ inp ∈ run, ∃ front,
        (checkHealth inp.api sel).1.Status = "ready" ∧
        (monitorLoop cfg key sel g l (run ++ post)).globals.statusCache key =
          some ⟨(checkHealth inp.api sel).1, inp.now, 0, 0⟩ ∧
        (monitorLoop cfg key sel g l (run ++ post)).trace =
          front ++ [.write key ⟨(checkHealth inp.api sel).1, inp.now, 0, 0⟩]) ∧
      (l.consecutiveHealthyChecks + run.length = cfg.consecHealthy →
        (monitorLoop cfg key sel g l (run ++ post)).unconsumed = post) := by
  intro run
  induction run with
  | nil => intro g l _ h; exact absurd rfl h
  | cons inp t ih =>
    intro g l hall _ hlen
    have hf := hall inp (by simp)
    simp only [pollReady, Bool.and_eq_true, beq_iff_eq] at hf
    obtain ⟨hok, hready⟩ := hf
    have hit := monitorIteration_succeeds cfg key sel g l inp hok
    simp only [hready, if_true] at hit
    by_cases hge : l.consecutiveHealthyChecks + 1 ≥ cfg.consecHealthy
    · rw [if_pos hge] at hit
      have hs : (monitorIteration cfg key sel g l inp).stopped = some .healthy := by rw [hit]
      rw [List.cons_append, monitorLoop_cons_stop cfg key sel g l inp _ _ hs, hit]
      refine ⟨rfl, by simp, ⟨inp, by simp, [.check], hready, ?_, rfl⟩, ?_⟩
      · simp [StatusCache.set]
      · intro heq
        simp only [List.length_cons, Nat.cast_add, Nat.cast_one] at heq
        have : t.length = 0 := by omega
        simp [List.length_eq_zero.mp this]
    · rw [if_neg hge] at hit
      have hs : (monitorIteration cfg key sel g l inp).stopped = none := by rw [hit]
      rw [List.cons_append, monitorLoop_cons_continue cfg key sel g l inp _ hs, hit]
      simp only [List.length_cons, Nat.cast_add, Nat.cast_one] at hlen
      have ht : t ≠ [] := by
        intro h0
        rw [h0] at hlen
        simp at hlen
        omega
      obtain ⟨h1, h2, ⟨i, hi, front, h0, h3, h4⟩, h5⟩ :=
        ih ⟨g.statusCache.set key ⟨(checkHealth inp.api sel).1, inp.now, 0, 0⟩, g.consecFailed⟩
          ⟨l.consecutiveHealthyChecks + 1, 0, cfg.checkInterval⟩
          (fun x hx => hall x (by simp [hx])) ht (by simp only; omega)
      refine ⟨h1, h2, ⟨i, by simp [hi],
        [.check, .write key ⟨(checkHealth inp.api sel).1, inp.now, 0, 0⟩, .sleep cfg.checkInterval]
          ++ front, h0, h3, ?_⟩, ?_⟩
      · simp only [h4, List.append_assoc]
      · intro heq
        simp only [List.length_cons, Nat.cast_add, Nat.cast_one] at heq
        exact h5 (by simp only; omega)

theorem wrapInt64_add_wrap (x y : Int) : wrapInt64 (wrapInt64 x + y) = wrapInt64 (x + y) := by
  unfold wrapInt64
  omega

theorem wrapInt64_of_inRange (x : Int) (h1 : -(2 ^ 63) ≤ x) (h2 : x < 2 ^ 63) : wrapInt64 x = x := by
  unfold wrapInt64
  omega

/-- Failing polls below the threshold keep the loop running and grow the delay. -/
theorem monitorLoop_fails_backoff (cfg : Config) (key sel : String) :
    ∀ (fails : List PollInput) (g : Globals) (l : Locals),
      (∀ inp ∈ fails, pollFails sel inp = true) →
      l.consecutiveNotFoundChecks + fails.length < g.consecFailed → fails ≠ [] →
      (monitorLoop cfg key sel g l fails).stopped = none ∧
      (monitorLoop cfg key sel g l fails).locals.consecutiveNotFoundChecks =
        l.consecutiveNotFoundChecks + fails.length ∧
      ∃ front, (monitorLoop cfg key sel g l fails).trace = front ++
        [.sleep (wrapInt64 (l.failedCheckInterval + fails.length * cfg.increaseIntervalValue))] := by
  intro fails
  induction fails with
  | nil => intro g l _ _ h; exact absurd rfl h
  | cons inp t ih =>
    intro g l hall hlt _
    simp only [List.length_cons, Nat.cast_add, Nat.cast_one] at hlt ⊢
    have hit := monitorIteration_fails cfg key sel g l inp (hall inp (by simp))
    have hge : ¬ (l.consecutiveNotFoundChecks + 1 ≥ g.consecFailed) := by omega
    rw [if_neg hge] at hit
    have hs : (monitorIteration cfg key sel g l inp).stopped = none := by rw [hit]
    rw [monitorLoop_cons_continue cfg key sel g l inp _ hs, hit]
    simp only
    by_cases ht : t = []
    · subst ht
      refine ⟨rfl, by simp [monitorLoop], [.check], ?_⟩
      simp [monitorLoop]
    · obtain ⟨h1, h2, front, h3⟩ :=
        ih g ⟨l.consecutiveHealthyChecks, l.consecutiveNotFoundChecks + 1,
          wrapInt64 (l.failedCheckInterval + cfg.increaseIntervalValue)⟩
          (fun x hx => hall x (by simp [hx])) (by simp only; omega) ht
      refine ⟨h1, by rw [h2]; simp only; omega,
        [.check, .sleep (wrapInt64 (l.failedCheckInterval + cfg.increaseIntervalValue))] ++ front, ?_⟩
      have e : l.failedCheckInterval + cfg.increaseIntervalValue +
          (t.length : Int) * cfg.increaseIntervalValue =
          l.failedCheckInterval + ((t.length : Int) + 1) * cfg.increaseIntervalValue := by ring
      rw [h3]
      simp only [List.append_assoc, wrapInt64_add_wrap, e]

/-- After a successful poll that does not end the loop, the error counter is 0, the
delay is back at `checkInterval`, and the loop sleeps `checkInterval`. -/
theorem monitorLoop_after_success (cfg : Config) (key sel : String) (pre : List PollInput)
    (g : Globals) (l : Locals) (inp : PollInput) (hok : pollSucceeds sel inp = true)
    (hrun : (monitorLoop cfg key sel g l (pre ++ [inp])).stopped = none) :
    (monitorLoop cfg key sel g l (pre ++ [inp])).locals.consecutiveNotFoundChecks = 0 ∧
    (monitorLoop cfg key sel g l (pre ++ [inp])).locals.failedCheckInterval = cfg.checkInterval ∧
    ∃ front, (monitorLoop cfg key sel g l (pre ++ [inp])).trace = front ++ [.sleep cfg.checkInterval] := by
  cases hs : (monitorLoop cfg key sel g l pre).stopped with
  | some s =>
    rw [monitorLoop_append_stopped cfg key sel [inp] pre g l s hs] at hrun
    simp only [hs] at hrun
    cases hrun
  | none =>
    rw [monitorLoop_append_running cfg key sel [inp] pre g l hs] at hrun ⊢
    simp only at hrun ⊢
    have hit := monitorIteration_succeeds cfg key sel (monitorLoop cfg key sel g l pre).globals
      (monitorLoop cfg key sel g l pre).locals inp hok
    by_cases hge : (if (checkHealth inp.api sel).1.Status = "ready" then
        (monitorLoop cfg key sel g l pre).locals.consecutiveHealthyChecks + 1 else 0) ≥ cfg.consecHealthy
    · rw [if_pos hge] at hit
      have hst : (monitorIteration cfg key sel (monitorLoop cfg key sel g l pre).globals
          (monitorLoop cfg key sel g l pre).locals inp).stopped = some .healthy := by rw [hit]
      rw [monitorLoop_cons_stop cfg key sel _ _ inp [] _ hst] at hrun
      cases hrun
    · rw [if_neg hge] at hit
      have hst : (monitorIteration cfg key sel (monitorLoop cfg key sel g l pre).globals
          (monitorLoop cfg key sel g l pre).locals inp).stopped = none := by rw [hit]
      rw [monitorLoop_cons_continue cfg key sel _ _ inp [] hst, hit]
      simp only [monitorLoop, List.append_nil]
      refine ⟨trivial, trivial, (monitorLoop cfg key sel g l pre).trace ++
        [.check, .write key ⟨(checkHealth inp.api sel).1, inp.now, 0, 0⟩], ?_⟩
      simp

/-- In one iteration, a write of status `failed` is the escalation write. -/
theorem monitorIteration_failed_write (cfg : Config) (key sel : String) (g : Globals) (l : Locals)
    (inp : PollInput) (k : String) (rs : ResourceStatus)
    (hw : Event.write k rs ∈ (monitorIteration cfg key sel g l inp).events)
    (hf : rs.CustomResourceStatus.Status = "failed") :
    (monitorIteration cfg key sel g l inp).stopped = some .failed ∧ pollFails sel inp = true ∧
      k = key ∧ rs = failedEntry inp.now := by
  rcases poll_cases sel inp with ⟨e, h⟩ | h | h
  · rw [monitorIteration_limiter cfg key sel g l inp e h] at hw
    simp at hw
  · rw [monitorIteration_fails cfg key sel g l inp h] at hw ⊢
    split_ifs at hw ⊢
    · simp only [List.mem_cons, Event.write.injEq, List.mem_singleton, reduceCtorEq, false_or,
        List.not_mem_nil, or_false] at hw
      exact ⟨rfl, h, hw.1, hw.2⟩
    · simp at hw
  · have hc : checkHealth inp.api sel = ((checkHealth inp.api sel).1, none) := by
      simp only [pollSucceeds, Bool.and_eq_true, Option.isNone_iff_eq_none] at h
      rw [← h.2]
    have hnf : (checkHealth inp.api sel).1.Status ≠ "failed" := by
      rcases checkHealth_status inp.api sel _ hc with h1 | h1
      · rw [h1.1]; decide
      · rw [h1]; decide
    rw [monitorIteration_succeeds cfg key sel g l inp h] at hw
    split_ifs at hw <;>
    · simp only [List.mem_cons, Event.write.injEq, List.mem_singleton, reduceCtorEq, false_or,
        List.not_mem_nil, or_false] at hw
      obtain ⟨_, h2⟩ := hw
      rw [h2] at hf
      exact absurd hf hnf

/-- In a run of the loop, a write of status `failed` is the escalation write, and the
last action of the run. -/
theorem monitorLoop_failed_write (cfg : Config) (key sel : String) (k : String) (rs : ResourceStatus)
    (hf : rs.CustomResourceStatus.Status = "failed") :
    ∀ (xs : List PollInput) (g : Globals) (l : Locals),
      Event.write k rs ∈ (monitorLoop cfg key sel g l xs).trace →
      (monitorLoop cfg key sel g l xs).stopped = some .failed ∧ k = key ∧
      (∃ inp ∈ xs, pollFails sel inp = true ∧ rs = failedEntry inp.now) ∧
      ∃ front, (monitorLoop cfg key sel g l xs).trace = front ++ [.write k rs] := by
  intro xs
  induction xs with
  | nil => intro g l h; simp [monitorLoop] at h
  | cons inp t ih =>
    intro g l h
    cases hs : (monitorIteration cfg key sel g l inp).stopped with
    | some s1 =>
      rw [monitorLoop_cons_stop cfg key sel g l inp _ s1 hs] at h ⊢
      simp only at h ⊢
      obtain ⟨h1, h2, h3, h4⟩ := monitorIteration_failed_write cfg key sel g l inp k rs h hf
      rw [hs] at h1
      refine ⟨h1, h3, ⟨inp, by simp, h2, h4⟩, [.check], ?_⟩
      rw [monitorIteration_fails cfg key sel g l inp h2] at hs ⊢
      split_ifs at hs ⊢
      · simp only [h3, h4, List.singleton_append]
    | none =>
      rw [monitorLoop_cons_continue cfg key sel g l inp _ hs] at h ⊢
      simp only [List.mem_append] at h ⊢
      rcases h with h | h
      · have := (monitorIteration_failed_write cfg key sel g l inp k rs h hf).1
        rw [hs] at this
        cases this
      · obtain ⟨h1, h2, ⟨i, hi, h3⟩, front, h4⟩ := ih _ _ h
        refine ⟨h1, h2, ⟨i, by simp [hi], h3⟩,
          (monitorIteration cfg key sel g l inp).events ++ front, ?_⟩
        rw [h4, List.append_assoc]

theorem Check_extends (checker : ResourceChecker) (api : ApiView) (sel : String) (acc r : Acc)
    (h : checker.Check api sel acc.1 acc.2 = .ok r) : Extends acc r :=
  Check_rel Extends (fun _ _ => True) extends_refl extends_trans
    (fun s a p => podVisit_extends s a p) (fun s a j => jobVisit_extends s a j)
    (fun s a v _ => pvVisit_extends s a v) (fun s a c => pvcVisit_extends s a c)
    checker api sel (fun _ _ _ _ => trivial) acc r h

theorem checkHealth_notFound (api : ApiView) (sel text : String) (h : api.customResource = .err text)
    (hnf : strContains text "not found" = true) :
    checkHealth api sel = (⟨"deploying", [], "Waiting for resource in kubernetes"⟩, none) := by
  unfold checkHealth
  rw [h]
  simp only [hnf, if_true]

theorem checkHealth_transport_error (api : ApiView) (sel text : String)
    (h : api.customResource = .err text) (hnf : strContains text "not found" = false) :
    checkHealth api sel = (⟨"", [], ""⟩, some ("[ERROR] Failed to get custom resource: " ++ text)) := by
  unfold checkHealth
  rw [h]
  simp [hnf]

theorem checkHealth_decode_error (api : ApiView) (sel e : String) (m : Option String)
    (h : api.customResource = .body (some e) m) :
    checkHealth api sel =
      (⟨"", [], ""⟩, some ("[ERROR] Failed to unmarshal custom resource: " ++ e)) := by
  unfold checkHealth
  rw [h]

/-- The two loop counters stay within their thresholds: an iteration started with both
counters below `max 1 threshold` ends with both at most `max 1 threshold`, and strictly
below when the loop goes on.  Thresholds are Go `int` values, so the increments of the
counters never overflow. -/
theorem monitorIteration_counters_bounded (cfg : Config) (key sel : String) (g : Globals) (l : Locals)
    (inp : PollInput)
    (h1 : l.consecutiveHealthyChecks < max 1 cfg.consecHealthy)
    (h2 : l.consecutiveNotFoundChecks < max 1 g.consecFailed)
    (h3 : 0 ≤ l.consecutiveHealthyChecks ∧ 0 ≤ l.consecutiveNotFoundChecks) :
    (monitorIteration cfg key sel g l inp).locals.consecutiveHealthyChecks ≤ max 1 cfg.consecHealthy ∧
    (monitorIteration cfg key sel g l inp).locals.consecutiveNotFoundChecks ≤ max 1 g.consecFailed ∧
    ((monitorIteration cfg key sel g l inp).stopped = none →
      (monitorIteration cfg key sel g l inp).locals.consecutiveHealthyChecks < max 1 cfg.consecHealthy ∧
      (monitorIteration cfg key sel g l inp).locals.consecutiveNotFoundChecks < max 1 g.consecFailed) := by
  obtain ⟨h4, h5⟩ := h3
  rcases poll_cases sel inp with ⟨e, h⟩ | h | h
  · rw [monitorIteration_limiter cfg key sel g l inp e h]
    exact ⟨le_of_lt h1, le_of_lt h2, fun h0 => by cases h0⟩
  · rw [monitorIteration_fails cfg key sel g l inp h]
    by_cases hge : l.consecutiveNotFoundChecks + 1 ≥ g.consecFailed
    · rw [if_pos hge]
      refine ⟨le_of_lt h1, ?_, fun h0 => by cases h0⟩
      simp only
      omega
    · rw [if_neg hge]
      refine ⟨le_of_lt h1, ?_, fun _ => ⟨h1, ?_⟩⟩ <;> simp only <;> omega
  · rw [monitorIteration_succeeds cfg key sel g l inp h]
    by_cases hge : (if (checkHealth inp.api sel).1.Status = "ready" then
        l.consecutiveHealthyChecks + 1 else 0) ≥ cfg.consecHealthy
    · rw [if_pos hge]
      refine ⟨?_, ?_, fun h0 => by cases h0⟩
      · simp only
        split_ifs <;> omega
      · simp only
        omega
    · rw [if_neg hge]
      refine ⟨?_, ?_, fun _ => ⟨?_, ?_⟩⟩
      · simp only
        split_ifs <;> omega
      · simp only
        omega
      · simp only
        split_ifs at hge ⊢ <;> omega
      · simp only
        omega

/-! ### The annotation filter -/

theorem foldl_filter_of_skip {α β : Type} (f : β → α → β) (p : α → Bool)
    (hskip : ∀ x, p x = false → ∀ acc, f acc x = acc) :
    ∀ (l : List α) (b : β), (l.filter p).foldl f b = l.foldl f b := by
  intro l
  induction l with
  | nil => intro b; rfl
  | cons x t ih =>
    intro b
    cases hp : p x with
    | true => simp only [List.filter_cons, hp, if_true, List.foldl_cons, ih]
    | false =>
      simp only [List.filter_cons, hp, List.foldl_cons, hskip x hp b]
      exact ih b

theorem podVisit_skip (sel : String) (p : Pod) (h : matchAnnotations p.Annotations sel = false)
    (acc : Acc) : PodChecker.visit sel acc p = acc := by
  simp [PodChecker.visit, h]

theorem jobVisit_skip (sel : String) (j : Job) (h : matchAnnotations j.Annotations sel = false)
    (acc : Acc) : JobChecker.visit sel acc j = acc := by
  simp [JobChecker.visit, h]

theorem pvVisit_skip (sel : String) (v : PersistentVolume)
    (h : matchAnnotations v.Annotations sel = false) (acc : Acc) :
    PVChecker.visit sel acc v = acc := by
  simp [PVChecker.visit, h]

theorem pvcVisit_skip (sel : String) (c : PersistentVolumeClaim)
    (h : matchAnnotations c.Annotations sel = false) (acc : Acc) :
    PVCChecker.visit sel acc c = acc := by
  simp [PVCChecker.visit, h]

theorem Check_matching (checker : ResourceChecker) (api : ApiView) (sel : String)
    (issues : List UnhealthyChild) (s : String) :
    checker.Check (api.matching sel) sel issues s = checker.Check api sel issues s := by
  cases checker with
  | PodChecker =>
    simp only [ResourceChecker.Check, PodChecker.Check, ApiView.matching]
    cases api.pods with
    | error e => rfl
    | ok items =>
      simp only [keepMatching]
      rw [foldl_filter_of_skip _ _ (fun x hx acc => podVisit_skip sel x hx acc)]
  | JobChecker =>
    simp only [ResourceChecker.Check, JobChecker.Check, ApiView.matching]
    cases api.jobs with
    | error e => rfl
    | ok items =>
      simp only [keepMatching]
      rw [foldl_filter_of_skip _ _ (fun x hx acc => jobVisit_skip sel x hx acc)]
  | PVChecker =>
    simp only [ResourceChecker.Check, PVChecker.Check, ApiView.matching]
    cases api.pvs with
    | error e => rfl
    | ok items =>
      simp only [keepMatching]
      rw [foldl_filter_of_skip _ _ (fun x hx acc => pvVisit_skip sel x hx acc)]
  | PVCChecker =>
    simp only [ResourceChecker.Check, PVCChecker.Check, ApiView.matching]
    cases api.pvcs with
    | error e => rfl
    | ok items =>
      simp only [keepMatching]
      rw [foldl_filter_of_skip _ _ (fun x hx acc => pvcVisit_skip sel x hx acc)]

theorem runCheckers_matching (api : ApiView) (sel : String) :
    ∀ (cs : List ResourceChecker) (acc : Acc),
      runCheckers (api.matching sel) sel cs acc = runCheckers api sel cs acc := by
  intro cs
  induction cs with
  | nil => intro acc; rfl
  | cons c t ih =>
    intro acc
    simp only [runCheckers, Check_matching c api sel acc.1 acc.2]
    cases c.Check api sel acc.1 acc.2 with
    | error e => rfl
    | ok r => exact ih r

theorem checkHealth_matching (api : ApiView) (sel : String) :
    checkHealth (api.matching sel) sel = checkHealth api sel := by
  unfold checkHealth
  simp only [runCheckers_matching api sel checkers]
  rfl

/-! ### Failure reasons -/

theorem getJobFailureReason_none (job : Job) (h : ∀ c ∈ job.Conditions, c.CondType ≠ "Failed") :
    getJobFailureReason job = "Unknown" := by
  unfold getJobFailureReason
  have : job.Conditions.find? (fun condition => condition.CondType == "Failed") = none := by
    rw [List.find?_eq_none]
    intro c hc
    simpa using h c hc
  rw [this]

theorem find?_first {α : Type} (p : α → Bool) (c : α) (post : List α) (hc : p c = true) :
    ∀ pre : List α, (∀ x ∈ pre, p x = false) → (pre ++ c :: post).find? p = some c := by
  intro pre
  induction pre with
  | nil => intro _; simp [List.find?, hc]
  | cons a t ih =>
    intro h
    have ha : p a = false := h a (by simp)
    simp only [List.cons_append, List.find?, ha]
    exact ih (fun x hx => h x (by simp [hx]))

theorem getJobFailureReason_first (job : Job) (pre : List JobCondition) (c : JobCondition)
    (post : List JobCondition) (hsplit : job.Conditions = pre ++ c :: post)
    (hpre : ∀ x ∈ pre, x.CondType ≠ "Failed") (hc : c.CondType = "Failed") :
    getJobFailureReason job = c.Reason := by
  unfold getJobFailureReason
  rw [hsplit, find?_first (fun condition : JobCondition => condition.CondType == "Failed") c post
    (by simp [hc]) pre (fun x hx => by simpa using hpre x hx)]

theorem findSome?_first {α β : Type} (f : α → Option β) (c : α) (b : β) (post : List α)
    (hc : f c = some b) :
    ∀ pre : List α, (∀ x ∈ pre, f x = none) → (pre ++ c :: post).findSome? f = some b := by
  intro pre
  induction pre with
  | nil => intro _; simp [List.findSome?, hc]
  | cons a t ih =>
    intro h
    have ha : f a = none := h a (by simp)
    simp only [List.cons_append, List.findSome?, ha]
    exact ih (fun x hx => h x (by simp [hx]))

theorem getPodFailureReason_none (pod : Pod) (h : ∀ c ∈ pod.ContainerStatuses, c.Waiting = none) :
    getPodFailureReason pod = "Unknown" := by
  unfold getPodFailureReason
  have : pod.ContainerStatuses.findSome? (fun containerStatus => containerStatus.Waiting) = none := by
    rw [List.findSome?_eq_none_iff]
    exact h
  rw [this]

theorem getPodFailureReason_first (pod : Pod) (pre : List ContainerStatus) (c : ContainerStatus)
    (reason : String) (post : List ContainerStatus)
    (hsplit : pod.ContainerStatuses = pre ++ c :: post)
    (hpre : ∀ x ∈ pre, x.Waiting = none) (hc : c.Waiting = some reason) :
    getPodFailureReason pod = reason := by
  unfold getPodFailureReason
  rw [hsplit, findSome?_first (fun containerStatus : ContainerStatus => containerStatus.Waiting)
    c reason post hc pre hpre]

theorem isPodHealthy_iff (pod : Pod) :
    isPodHealthy pod = true ↔
      (∀ c ∈ pod.ContainerStatuses, c.Ready = true) ∧
      (∀ c ∈ pod.Conditions, c.CondType = "Ready" → c.Status = "True") := by
  unfold isPodHealthy
  constructor
  · intro h
    split_ifs at h with h1 h2
    constructor
    · simpa using h2
    · simpa using h1
  · intro ⟨hc, hr⟩
    have h1 : ¬ (pod.Conditions.any
        (fun condition => condition.CondType == "Ready" && condition.Status != "True") = true) := by
      simpa using hr
    have h2 : ¬ (pod.ContainerStatuses.any (fun containerStatus => !containerStatus.Ready) = true) := by
      simpa using hc
    rw [if_neg h1, if_neg h2]

theorem append_singleton_ne_self {α : Type} (l : List α) (x : α) (s t : String) :
    ((l ++ [x], s) : List α × String) ≠ (l, t) := by
  intro h
  have := congrArg (fun p => p.1.length) h
  simp at this

/-! ### Where issues come from -/

theorem addsOnly_refl (Q : UnhealthyChild → Prop) (a : Acc) : AddsOnly Q a a :=
  fun _ hi => Or.inl hi

theorem addsOnly_trans (Q : UnhealthyChild → Prop) (a b c : Acc) (h1 : AddsOnly Q a b)
    (h2 : AddsOnly Q b c) : AddsOnly Q a c := by
  intro i hi
  rcases h2 i hi with h | h
  · exact h1 i h
  · exact Or.inr h

theorem addsOnly_same (Q : UnhealthyChild → Prop) (a : Acc) (s : String) :
    AddsOnly Q a (a.1, s) := fun _ hi => Or.inl hi

theorem addsOnly_append (Q : UnhealthyChild → Prop) (a : Acc) (x : UnhealthyChild) (s : String)
    (hx : Q x) : AddsOnly Q a (a.1 ++ [x], s) := by
  intro i hi
  simp only [List.mem_append, List.mem_singleton] at hi
  rcases hi with h | h
  · exact Or.inl h
  · exact Or.inr (h ▸ hx)

theorem podVisit_addsOnly (sel : String) (acc : Acc) (p : Pod) :
    AddsOnly (fun i => i.Kind = "Pod" ∧ i.Name = p.Name ∧ i.Status = p.Phase) acc
      (PodChecker.visit sel acc p) := by
  unfold PodChecker.visit
  split_ifs <;>
    first
      | exact addsOnly_refl _ _
      | exact addsOnly_append _ _ _ _ ⟨rfl, rfl, rfl⟩

theorem jobVisit_addsOnly (sel : String) (acc : Acc) (j : Job) :
    AddsOnly (fun i => i.Kind = "Job" ∧ i.Name = j.Name ∧
        ((3 ≤ j.Failed ∧ i.Status = "Failed") ∨ (j.Failed < 3 ∧ i.Status = "Pending"))) acc
      (JobChecker.visit sel acc j) := by
  unfold JobChecker.visit
  simp only
  split_ifs with h1 h2 h3 <;>
    first
      | exact addsOnly_refl _ _
      | exact addsOnly_append _ _ _ _ ⟨rfl, rfl, Or.inl ⟨h2, rfl⟩⟩
      | exact addsOnly_append _ _ _ _ ⟨rfl, rfl, Or.inr ⟨by omega, rfl⟩⟩

theorem pvVisit_addsOnly (sel : String) (acc : Acc) (v : PersistentVolume) :
    AddsOnly (fun i => i.Kind = "PV" ∧ i.Name = v.Name ∧ i.Status = v.Phase) acc
      (PVChecker.visit sel acc v) := by
  unfold PVChecker.visit
  split_ifs <;>
    first
      | exact addsOnly_refl _ _
      | exact addsOnly_append _ _ _ _ ⟨rfl, rfl, rfl⟩

theorem pvcVisit_addsOnly (sel : String) (acc : Acc) (c : PersistentVolumeClaim) :
    AddsOnly (fun i => i.Kind = "PVC" ∧ i.Name = c.Name ∧ i.Status = c.Phase) acc
      (PVCChecker.visit sel acc c) := by
  unfold PVCChecker.visit
  split_ifs <;>
    first
      | exact addsOnly_refl _ _
      | exact addsOnly_append _ _ _ _ ⟨rfl, rfl, rfl⟩

theorem addsOnly_weaken (Q Q' : UnhealthyChild → Prop) (hQ : ∀ i, Q i → Q' i) (a b : Acc)
    (h : AddsOnly Q a b) : AddsOnly Q' a b :=
  fun i hi => (h i hi).imp id (hQ i)

/-- A pass that ran to its end only added issues that report a child of the API answers. -/
theorem runCheckers_addsOnly (api : ApiView) (sel : String) (acc r : Acc)
    (h : runCheckers api sel checkers acc = .ok r) : AddsOnly (issueOrigin api) acc r := by
  obtain ⟨a1, a2, a3, h1, h2, h3, h4⟩ := runCheckers_checkers api sel acc r h
  have k1 : AddsOnly (issueOrigin api) acc a1 := by
    unfold PodChecker.Check at h1
    cases hp : api.pods with
    | error e => rw [hp] at h1; cases h1
    | ok items =>
      rw [hp] at h1
      cases h1
      exact foldl_rel _ _ (addsOnly_refl _) (addsOnly_trans _) items acc (fun x hx a =>
        addsOnly_weaken _ _ (fun i hi => Or.inl ⟨hi.1, items, x, hp, hx, hi.2.1, hi.2.2⟩) _ _
          (podVisit_addsOnly sel a x))
  have k2 : AddsOnly (issueOrigin api) a1 a2 := by
    unfold JobChecker.Check at h2
    cases hp : api.jobs with
    | error e => rw [hp] at h2; cases h2
    | ok items =>
      rw [hp] at h2
      cases h2
      exact foldl_rel _ _ (addsOnly_refl _) (addsOnly_trans _) items a1 (fun x hx a =>
        addsOnly_weaken _ _
          (fun i hi => Or.inr (Or.inl ⟨hi.1, items, x, hp, hx, hi.2.1, hi.2.2⟩)) _ _
          (jobVisit_addsOnly sel a x))
  have k3 : AddsOnly (issueOrigin api) a2 a3 := by
    unfold PVChecker.Check at h3
    cases hp : api.pvs with
    | error e => rw [hp] at h3; cases h3
    | ok items =>
      rw [hp] at h3
      cases h3
      exact foldl_rel _ _ (addsOnly_refl _) (addsOnly_trans _) items a2 (fun x hx a =>
        addsOnly_weaken _ _
          (fun i hi => Or.inr (Or.inr (Or.inl ⟨hi.1, items, x, hp, hx, hi.2.1, hi.2.2⟩))) _ _
          (pvVisit_addsOnly sel a x))
  have k4 : AddsOnly (issueOrigin api) a3 r := by
    unfold PVCChecker.Check at h4
    cases hp : api.pvcs with
    | error e => rw [hp] at h4; cases h4
    | ok items =>
      rw [hp] at h4
      cases h4
      exact foldl_rel _ _ (addsOnly_refl _) (addsOnly_trans _) items a3 (fun x hx a =>
        addsOnly_weaken _ _
          (fun i hi => Or.inr (Or.inr (Or.inr ⟨hi.1, items, x, hp, hx, hi.2.1, hi.2.2⟩))) _ _
          (pvcVisit_addsOnly sel a x))
  exact addsOnly_trans _ _ _ _ (addsOnly_trans _ _ _ _ (addsOnly_trans _ _ _ _ k1 k2) k3) k4

/-- The details of a status returned without error report children of the API answers. -/
theorem checkHealth_details_origin (api : ApiView) (sel : String) (st : CustomResourceStatus)
    (h : checkHealth api sel = (st, none)) : ∀ i ∈ st.Details, issueOrigin api i := by
  cases hf : api.customResource with
  | err text =>
    unfold checkHealth at h
    rw [hf] at h
    simp only at h
    split_ifs at h
    · cases h
      intro i hi
      simp at hi
    · cases h
  | body u m =>
    cases u with
    | some e => unfold checkHealth at h; rw [hf] at h; cases h
    | none =>
      cases m with
      | some e => unfold checkHealth at h; rw [hf] at h; cases h
      | none =>
        rw [checkHealth_body api sel hf] at h
        cases hr : runCheckers api sel checkers ([], "ready") with
        | error e => rw [hr] at h; cases h
        | ok r =>
          rw [hr] at h
          simp only [Prod.mk.injEq, and_true] at h
          subst h
          intro i hi
          rcases runCheckers_addsOnly api sel _ r hr i hi with h0 | h0
          · simp at h0
          · exact h0

/-! ### Failed list calls -/

theorem checkHealth_pods_error (api : ApiView) (sel e : String)
    (hf : api.customResource = .body none none) (h : api.pods = .error e) :
    checkHealth api sel = (⟨"", [], ""⟩, some ("error listing Pods: " ++ e)) := by
  rw [checkHealth_body api sel hf]
  simp [checkers, runCheckers, ResourceChecker.Check, PodChecker.Check, h]

theorem checkHealth_jobs_error (api : ApiView) (sel e : String) (pods : List Pod)
    (hf : api.customResource = .body none none) (h1 : api.pods = .ok pods)
    (h : api.jobs = .error e) :
    checkHealth api sel = (⟨"", [], ""⟩, some ("error listing Jobs: " ++ e)) := by
  rw [checkHealth_body api sel hf]
  simp [checkers, runCheckers, ResourceChecker.Check, PodChecker.Check, JobChecker.Check, h1, h]

theorem checkHealth_pvs_error (api : ApiView) (sel e : String) (pods : List Pod) (jobs : List Job)
    (hf : api.customResource = .body none none) (h1 : api.pods = .ok pods)
    (h2 : api.jobs = .ok jobs) (h : api.pvs = .error e) :
    checkHealth api sel = (⟨"", [], ""⟩, some ("error listing PVs: " ++ e)) := by
  rw [checkHealth_body api sel hf]
  simp [checkers, runCheckers, ResourceChecker.Check, PodChecker.Check, JobChecker.Check,
    PVChecker.Check, h1, h2, h]

theorem checkHealth_pvcs_error (api : ApiView) (sel e : String) (pods : List Pod) (jobs : List Job)
    (pvs : List PersistentVolume)
    (hf : api.customResource = .body none none) (h1 : api.pods = .ok pods)
    (h2 : api.jobs = .ok jobs) (h3 : api.pvs = .ok pvs) (h : api.pvcs = .error e) :
    checkHealth api sel = (⟨"", [], ""⟩, some ("error listing PVCs: " ++ e)) := by
  rw [checkHealth_body api sel hf]
  simp [checkers, runCheckers, ResourceChecker.Check, PodChecker.Check, JobChecker.Check,
    PVChecker.Check, PVCChecker.Check, h1, h2, h3, h]

/-- A failed list call, whichever it is, makes `checkHealth` return the empty status with
an error. -/
theorem checkHealth_list_error (api : ApiView) (sel : String)
    (hf : api.customResource = .body none none)
    (h : (∃ e, api.pods = .error e) ∨ (∃ e, api.jobs = .error e) ∨ (∃ e, api.pvs = .error e) ∨
      (∃ e, api.pvcs = .error e)) :
    ∃ err, checkHealth api sel = (⟨"", [], ""⟩, some err) := by
  cases h1 : api.pods with
  | error e => exact ⟨_, checkHealth_pods_error api sel e hf h1⟩
  | ok pods =>
    cases h2 : api.jobs with
    | error e => exact ⟨_, checkHealth_jobs_error api sel e pods hf h1 h2⟩
    | ok jobs =>
      cases h3 : api.pvs with
      | error e => exact ⟨_, checkHealth_pvs_error api sel e pods jobs hf h1 h2 h3⟩
      | ok pvs =>
        cases h4 : api.pvcs with
        | error e => exact ⟨_, checkHealth_pvcs_error api sel e pods jobs pvs hf h1 h2 h3 h4⟩
        | ok pvcs =>
          rcases h with ⟨e, h⟩ | ⟨e, h⟩ | ⟨e, h⟩ | ⟨e, h⟩
          · rw [h1] at h; cases h
          · rw [h2] at h; cases h
          · rw [h3] at h; cases h
          · rw [h4] at h; cases h

/-! ### The counters stored in the cache -/

/-- One iteration leaves the cache as it was or sets the entry of its key to an entry
with both counters at 0. -/
theorem monitorIteration_cache (cfg : Config) (key sel : String) (g : Globals) (l : Locals)
    (inp : PollInput) :
    (monitorIteration cfg key sel g l inp).globals.statusCache = g.statusCache ∨
    ∃ crs, (monitorIteration cfg key sel g l inp).globals.statusCache =
      g.statusCache.set key ⟨crs, inp.now, 0, 0⟩ := by
  rcases poll_cases sel inp with ⟨e, h⟩ | h | h
  · rw [monitorIteration_limiter cfg key sel g l inp e h]
    exact Or.inl rfl
  · rw [monitorIteration_fails cfg key sel g l inp h]
    split_ifs
    · exact Or.inr ⟨_, rfl⟩
    · exact Or.inl rfl
  · rw [monitorIteration_succeeds cfg key sel g l inp h]
    split_ifs <;> exact Or.inr ⟨_, rfl⟩

theorem set_zeroCounters (cache : StatusCache) (key : String) (crs : CustomResourceStatus)
    (now : Int) (h : zeroCounters cache) : zeroCounters (cache.set key ⟨crs, now, 0, 0⟩) := by
  intro k st hk
  unfold StatusCache.set at hk
  split_ifs at hk
  · cases hk
    exact ⟨rfl, rfl⟩
  · exact h k st hk

theorem monitorIteration_zeroCounters (cfg : Config) (key sel : String) (g : Globals) (l : Locals)
    (inp : PollInput) (h : zeroCounters g.statusCache) :
    zeroCounters (monitorIteration cfg key sel g l inp).globals.statusCache := by
  rcases monitorIteration_cache cfg key sel g l inp with h1 | ⟨crs, h1⟩
  · rw [h1]; exact h
  · rw [h1]; exact set_zeroCounters _ _ _ _ h

/-- On a cache whose counters are all 0, `resetHandler` returns the same cache. -/
theorem resetHandler_of_zeroCounters (cache : StatusCache)
    (crdGroup crdVersion crdPlural namespace_ name : String) (h : zeroCounters cache) :
    (resetHandler cache crdGroup crdVersion crdPlural namespace_ name).1 = cache := by
  unfold resetHandler
  simp only
  cases hc : cache (resourceKey crdGroup crdVersion crdPlural namespace_ name) with
  | none => rfl
  | some st =>
    simp only
    funext k
    unfold StatusCache.set
    split_ifs with hk
    · obtain ⟨h1, h2⟩ := h _ st hc
      rw [hk, hc]
      cases st
      simp only at h1 h2
      subst h1 h2
      rfl
    · rfl

theorem reachable_zeroCounters (cache : StatusCache) (h : Reachable cache) : zeroCounters cache := by
  induction h with
  | start => intro k st hk; cases hk
  | monitor cfg key sel cache consecFailed l inp _ ih =>
    exact monitorIteration_zeroCounters cfg key sel ⟨cache, consecFailed⟩ l inp ih
  | reset cache crdGroup crdVersion crdPlural namespace_ name _ ih =>
    rw [resetHandler_of_zeroCounters cache crdGroup crdVersion crdPlural namespace_ name ih]
    exact ih

/-- Every entry one iteration writes has both counters at 0. -/
theorem monitorIteration_write_counters (cfg : Config) (key sel : String) (g : Globals) (l : Locals)
    (inp : PollInput) (k : String) (rs : ResourceStatus)
    (hw : Event.write k rs ∈ (monitorIteration cfg key sel g l inp).events) :
    rs.ConsecHealthyChecks = 0 ∧ rs.ConsecFailedChecks = 0 := by
  rcases poll_cases sel inp with ⟨e, h⟩ | h | h
  · rw [monitorIteration_limiter cfg key sel g l inp e h] at hw
    simp at hw
  · rw [monitorIteration_fails cfg key sel g l inp h] at hw
    split_ifs at hw
    · simp only [List.mem_cons, Event.write.injEq, reduceCtorEq, false_or, List.not_mem_nil,
        or_false] at hw
      rw [hw.2]
      exact ⟨rfl, rfl⟩
    · simp at hw
  · rw [monitorIteration_succeeds cfg key sel g l inp h] at hw
    split_ifs at hw <;>
    · simp only [List.mem_cons, Event.write.injEq, reduceCtorEq, false_or, List.not_mem_nil,
        or_false] at hw
      rw [hw.2]
      exact ⟨rfl, rfl⟩

theorem monitorLoop_write_counters (cfg : Config) (key sel : String) (k : String)
    (rs : ResourceStatus) :
    ∀ (xs : List PollInput) (g : Globals) (l : Locals),
      Event.write k rs ∈ (monitorLoop cfg key sel g l xs).trace →
      rs.ConsecHealthyChecks = 0 ∧ rs.ConsecFailedChecks = 0 := by
  intro xs
  induction xs with
  | nil => intro g l h; simp [monitorLoop] at h
  | cons inp t ih =>
    intro g l h
    cases hs : (monitorIteration cfg key sel g l inp).stopped with
    | some s1 =>
      rw [monitorLoop_cons_stop cfg key sel g l inp _ s1 hs] at h
      exact monitorIteration_write_counters cfg key sel g l inp k rs h
    | none =>
      rw [monitorLoop_cons_continue cfg key sel g l inp _ hs] at h
      simp only [List.mem_append] at h
      rcases h with h | h
      · exact monitorIteration_write_counters cfg key sel g l inp k rs h
      · exact ih _ _ h

/-- What one iteration does to the local variables, to `consecFailed`, and which
actions and which return it takes, does not depend on the cache. -/
theorem monitorIteration_cache_independent (cfg : Config) (key sel : String)
    (cache1 cache2 : StatusCache) (consecFailed : Int) (l : Locals) (inp : PollInput) :
    (monitorIteration cfg key sel ⟨cache1, consecFailed⟩ l inp).locals =
      (monitorIteration cfg key sel ⟨cache2, consecFailed⟩ l inp).locals ∧
    (monitorIteration cfg key sel ⟨cache1, consecFailed⟩ l inp).events =
      (monitorIteration cfg key sel ⟨cache2, consecFailed⟩ l inp).events ∧
    (monitorIteration cfg key sel ⟨cache1, consecFailed⟩ l inp).stopped =
      (monitorIteration cfg key sel ⟨cache2, consecFailed⟩ l inp).stopped ∧
    (monitorIteration cfg key sel ⟨cache1, consecFailed⟩ l inp).globals.consecFailed =
      (monitorIteration cfg key sel ⟨cache2, consecFailed⟩ l inp).globals.consecFailed := by
  rcases poll_cases sel inp with ⟨e, h⟩ | h | h
  · rw [monitorIteration_limiter cfg key sel _ l inp e h,
      monitorIteration_limiter cfg key sel _ l inp e h]
    exact ⟨rfl, rfl, rfl, rfl⟩
  · rw [monitorIteration_fails cfg key sel _ l inp h, monitorIteration_fails cfg key sel _ l inp h]
    simp only
    split_ifs <;> exact ⟨rfl, rfl, rfl, rfl⟩
  · rw [monitorIteration_succeeds cfg key sel _ l inp h,
      monitorIteration_succeeds cfg key sel _ l inp h]
    simp only
    split_ifs <;> exact ⟨rfl, rfl, rfl, rfl⟩

theorem monitorLoop_cache_independent (cfg : Config) (key sel : String) :
    ∀ (xs : List PollInput) (cache1 cache2 : StatusCache) (consecFailed : Int) (l : Locals),
      (monitorLoop cfg key sel ⟨cache1, consecFailed⟩ l xs).locals =
        (monitorLoop cfg key sel ⟨cache2, consecFailed⟩ l xs).locals ∧
      (monitorLoop cfg key sel ⟨cache1, consecFailed⟩ l xs).trace =
        (monitorLoop cfg key sel ⟨cache2, consecFailed⟩ l xs).trace ∧
      (monitorLoop cfg key sel ⟨cache1, consecFailed⟩ l xs).stopped =
        (monitorLoop cfg key sel ⟨cache2, consecFailed⟩ l xs).stopped := by
  intro xs
  induction xs with
  | nil => intro c1 c2 cf l; exact ⟨rfl, rfl, rfl⟩
  | cons inp t ih =>
    intro c1 c2 cf l
    obtain ⟨h1, h2, h3, h4⟩ := monitorIteration_cache_independent cfg key sel c1 c2 cf l inp
    cases hs : (monitorIteration cfg key sel ⟨c2, cf⟩ l inp).stopped with
    | some s1 =>
      have hs1 := h3.trans hs
      rw [monitorLoop_cons_stop cfg key sel _ l inp _ s1 hs,
        monitorLoop_cons_stop cfg key sel _ l inp _ s1 hs1]
      exact ⟨h1, h2, rfl⟩
    | none =>
      have hs1 := h3.trans hs
      rw [monitorLoop_cons_continue cfg key sel _ l inp _ hs,
        monitorLoop_cons_continue cfg key sel _ l inp _ hs1]
      simp only
      have e1 : (monitorIteration cfg key sel ⟨c1, cf⟩ l inp).globals =
          ⟨(monitorIteration cfg key sel ⟨c1, cf⟩ l inp).globals.statusCache,
            (monitorIteration cfg key sel ⟨c2, cf⟩ l inp).globals.consecFailed⟩ := by
        rw [← h4]
      have e2 : (monitorIteration cfg key sel ⟨c2, cf⟩ l inp).globals =
          ⟨(monitorIteration cfg key sel ⟨c2, cf⟩ l inp).globals.statusCache,
            (monitorIteration cfg key sel ⟨c2, cf⟩ l inp).globals.consecFailed⟩ := rfl
      rw [e1, e2, h1, h2]
      obtain ⟨k1, k2, k3⟩ := ih (monitorIteration cfg key sel ⟨c1, cf⟩ l inp).globals.statusCache
        (monitorIteration cfg key sel ⟨c2, cf⟩ l inp).globals.statusCache
        (monitorIteration cfg key sel ⟨c2, cf⟩ l inp).globals.consecFailed
        (monitorIteration cfg key sel ⟨c2, cf⟩ l inp).locals
      exact ⟨k1, by rw [k2], k3⟩

/-! ## Claims -/

/-- C10: `matchAnnotations` is an exact-match `key=value` filter: the empty selector
matches every annotation map; a selector `k=v` (with no `=` in `k`, so that `k` is
the text before the first `=` and `v` the text after it) matches exactly when the map
holds key `k` with value `v`; a non-empty selector without `=` matches nothing. -/
theorem matchAnnotations_exact (m : Annotations) :
    matchAnnotations m "" = true ∧
    (∀ k v : String, '=' ∉ k.data →
      (matchAnnotations m (k ++ "=" ++ v) = true ↔ m k = some v)) ∧
    (∀ sel : String, sel ≠ "" → '=' ∉ sel.data → matchAnnotations m sel = false) := by
  refine ⟨by simp [matchAnnotations], ?_, ?_⟩
  · intro k v hk
    have hne : k ++ "=" ++ v ≠ "" := by
      intro h
      have := congrArg String.data h
      simp [String.data_append] at this
    unfold matchAnnotations
    rw [if_neg hne, SplitN_two_of_mem k v hk]
    cases hm : m k with
    | none => simp [hm]
    | some w => simp [hm]
  · intro sel hne hs
    unfold matchAnnotations
    rw [if_neg hne, SplitN_two_of_not_mem sel hs]
/-- C10 at the map `tier: db` with the selectors `tier=db` and `tier`. -/
theorem matchAnnotations_exact_witness :
    (matchAnnotations tierDb "tier=db" = true ↔ tierDb "tier" = some "db") ∧
      matchAnnotations tierDb "tier" = false :=
  ⟨(matchAnnotations_exact tierDb).2.1 "tier" "db" (by decide),
    (matchAnnotations_exact tierDb).2.2 "tier" (by decide) (by decide)⟩

/-- C7: `resetHandler` on a present key zeroes both counters of that entry, keeps its
`CustomResourceStatus` and `Timestamp`, keeps every other key and answers 200; on an
absent key it answers 404 and returns the cache unchanged. -/
theorem resetHandler_frame (cache : StatusCache) (crdGroup crdVersion crdPlural namespace_ name : String) :
    (∀ st, cache (resourceKey crdGroup crdVersion crdPlural namespace_ name) = some st →
      (resetHandler cache crdGroup crdVersion crdPlural namespace_ name).1
          (resourceKey crdGroup crdVersion crdPlural namespace_ name) =
        some ⟨st.CustomResourceStatus, st.Timestamp, 0, 0⟩ ∧
      (∀ k, k ≠ resourceKey crdGroup crdVersion crdPlural namespace_ name →
        (resetHandler cache crdGroup crdVersion crdPlural namespace_ name).1 k = cache k) ∧
      (resetHandler cache crdGroup crdVersion crdPlural namespace_ name).2.code = 200) ∧
    (cache (resourceKey crdGroup crdVersion crdPlural namespace_ name) = none →
      (resetHandler cache crdGroup crdVersion crdPlural namespace_ name).1 = cache ∧
      (resetHandler cache crdGroup crdVersion crdPlural namespace_ name).2.code = 404) := by
  constructor
  · intro st h
    refine ⟨?_, ?_, ?_⟩
    · simp [resetHandler, h, StatusCache.set]
    · intro k hk
      simp [resetHandler, h, StatusCache.set, hk]
    · simp [resetHandler, h]
  · intro h
    constructor <;> simp [resetHandler, h]

/-- C7 at the cache `cacheOne`: a reset of its key and a reset of an unknown key. -/
theorem resetHandler_frame_witness :
    (resetHandler cacheOne "g" "v1" "widgets" "ns" "a").1 (resourceKey "g" "v1" "widgets" "ns" "a") =
        some ⟨⟨"deploying", [], "m"⟩, 17, 0, 0⟩ ∧
      (resetHandler cacheOne "g" "v1" "widgets" "ns" "b").1 = cacheOne :=
  ⟨((resetHandler_frame cacheOne "g" "v1" "widgets" "ns" "a").1 ⟨⟨"deploying", [], "m"⟩, 17, 2, 1⟩
      (by decide)).1,
    ((resetHandler_frame cacheOne "g" "v1" "widgets" "ns" "b").2 (by decide)).1⟩

/-- C8, as stated, fails: on incoming severity `deploying` the PV checker, given one
persistent volume in phase `Available`, leaves severity `ready`, which is lower. -/
theorem PVChecker_available_lowers_deploying :
    ResourceChecker.Check .PVChecker apiAvailablePV "" [] "deploying" =
        .ok ([⟨"PV", "pv-1", "Available", "PV pv-1 is Available", "Available"⟩], "ready") ∧
      isSeverity "deploying" ∧ severityRank "ready" < severityRank "deploying" :=
  ⟨rfl, Or.inr (Or.inl rfl), by decide⟩

/-- C8, amended: under the order ready < deploying < failed, the Pod, Job and PVC
checkers on every list, and the PV checker on every list in which no volume passing the
annotation filter is in phase `Available`, leave a severity that is at least the incoming
one; hence in a pass (any sequence of checkers) over such lists no child lowers a
severity set before it. -/
theorem checkers_raise_unless_available (api : ApiView) (sel : String) :
    (∀ (checker : ResourceChecker) (issues : List UnhealthyChild) (s : String) (r : Acc),
      isSeverity s →
      (checker = .PVChecker → ∀ items, api.pvs = .ok items → ∀ pv ∈ items, notAvailable sel pv) →
      checker.Check api sel issues s = .ok r →
      isSeverity r.2 ∧ severityRank s ≤ severityRank r.2) ∧
    (∀ (cs : List ResourceChecker) (issues : List UnhealthyChild) (s : String) (r : Acc),
      isSeverity s →
      (∀ items, api.pvs = .ok items → ∀ pv ∈ items, notAvailable sel pv) →
      runCheckers api sel cs (issues, s) = .ok r →
      isSeverity r.2 ∧ severityRank s ≤ severityRank r.2) := by
  constructor
  · intro checker issues s r hs hpv h
    by_cases hc : checker = .PVChecker
    · exact Check_raises checker api sel (issues, s) r (hpv hc) h hs
    · rw [Check_without_pvs checker hc] at h
      exact Check_raises checker _ sel (issues, s) r
        (fun items hi pv hm => by cases hi; simp at hm) h hs
  · intro cs issues s r hs hpv h
    exact runCheckers_raises api sel cs (issues, s) r hpv h hs

/-- C8 amended, at the PV checker on one volume in phase `Released`, from incoming
severity `ready`: the outgoing severity is `deploying`. -/
theorem checkers_raise_unless_available_witness :
    ResourceChecker.Check .PVChecker apiReleasedPV "" [] "ready" =
        .ok ([⟨"PV", "pv-2", "Released", "PV pv-2 is in Released state", "Released"⟩], "deploying") ∧
      isSeverity "deploying" ∧ severityRank "ready" ≤ severityRank "deploying" :=
  ⟨rfl,
    (checkers_raise_unless_available apiReleasedPV "").1 .PVChecker [] "ready"
      ([⟨"PV", "pv-2", "Released", "PV pv-2 is in Released state", "Released"⟩], "deploying")
      (Or.inl rfl)
      (fun _ items hi pv hm => by
        cases hi
        simp only [List.mem_singleton] at hm
        subst hm
        intro _
        decide)
      rfl⟩

/-- C9: severity `failed` is sticky: every checker, on every list, turns incoming
severity `failed` into outgoing severity `failed`; so a pass that meets a child whose
visit sets `failed`, whatever children follow it, ends with severity `failed`, while
the status `checkHealth` publishes is `deploying`. -/
theorem failed_is_sticky (api : ApiView) (sel : String) :
    (∀ (checker : ResourceChecker) (issues : List UnhealthyChild) (r : Acc),
      checker.Check api sel issues "failed" = .ok r → r.2 = "failed") ∧
    (∀ r : Acc, api.customResource = .body none none →
      runCheckers api sel checkers ([], "ready") = .ok r → hasFailedChild api sel →
      r.2 = "failed" ∧ checkHealth api sel = (⟨"deploying", r.1, ""⟩, none)) := by
  constructor
  · intro checker issues r h
    exact Check_keepsFailed checker api sel (issues, "failed") r h rfl
  · intro r hf h hc
    have hfailed := runCheckers_failed_of_child api sel _ r h hc
    refine ⟨hfailed, ?_⟩
    rw [checkHealth_body api sel hf, h]
    simp only
    rw [publishedStatus_of_pass api sel checkers r h]
    have hne : r.1 ≠ [] := by
      intro h0
      have := runCheckers_nil_ready api sel checkers r h h0
      rw [hfailed] at this
      exact absurd this (by decide)
    simp [hne]

/-- C9 at a pass over a failed pod followed by a pending pod: the pass ends with
severity `failed` and `checkHealth` publishes `deploying`. -/
theorem failed_is_sticky_witness :
    runCheckers apiFailedThenPending "" checkers ([], "ready") =
        .ok ([⟨"Pod", "web-0", "Failed", "Pod web-0 is in Failed state", "CrashLoopBackOff"⟩,
          ⟨"Pod", "web-1", "Pending", "Pod web-1 is in Pending state", "Pending"⟩], "failed") ∧
      checkHealth apiFailedThenPending "" =
        (⟨"deploying",
          [⟨"Pod", "web-0", "Failed", "Pod web-0 is in Failed state", "CrashLoopBackOff"⟩,
            ⟨"Pod", "web-1", "Pending", "Pod web-1 is in Pending state", "Pending"⟩], ""⟩, none) :=
  ⟨rfl,
    ((failed_is_sticky apiFailedThenPending "").2
      ([⟨"Pod", "web-0", "Failed", "Pod web-0 is in Failed state", "CrashLoopBackOff"⟩,
        ⟨"Pod", "web-1", "Pending", "Pod web-1 is in Pending state", "Pending"⟩], "failed")
      rfl rfl
      (Or.inl ⟨[podFailed, podPending], podFailed, rfl, by simp, by decide⟩)).2⟩

/-- C1: when the fetch of the custom resource (and its decoding) and the four list
calls succeed, `checkHealth` returns without error the issue list accumulated by the
checkers as `Details`, with status `deploying` when that list is non-empty and `ready`
when it is empty, whatever severity the checkers reached; with no children of any kind
it returns status `ready` with empty `Details`. -/
theorem checkHealth_published (api : ApiView) (sel : String) (pods : List Pod) (jobs : List Job)
    (pvs : List PersistentVolume) (pvcs : List PersistentVolumeClaim)
    (hfetch : api.customResource = .body none none)
    (hpods : api.pods = .ok pods) (hjobs : api.jobs = .ok jobs) (hpvs : api.pvs = .ok pvs)
    (hpvcs : api.pvcs = .ok pvcs) :
    (∃ details severity,
      runCheckers api sel checkers ([], "ready") = .ok (details, severity) ∧
      checkHealth api sel = (⟨if details = [] then "ready" else "deploying", details, ""⟩, none)) ∧
    (pods = [] → jobs = [] → pvs = [] → pvcs = [] →
      checkHealth api sel = (⟨"ready", [], ""⟩, none)) := by
  have hrun := runCheckers_ok api sel ([], "ready") pods jobs pvs pvcs hpods hjobs hpvs hpvcs
  constructor
  · refine ⟨_, _, hrun, ?_⟩
    rw [checkHealth_body api sel hfetch, hrun]
    simp only
    rw [publishedStatus_of_pass api sel checkers _ hrun]
  · intro h1 h2 h3 h4
    subst h1 h2 h3 h4
    rw [checkHealth_body api sel hfetch, hrun]
    simp [publishedStatus]

/-- C1 at a custom resource without children. -/
theorem checkHealth_published_witness :
    checkHealth apiNoChildren "" = (⟨"ready", [], ""⟩, none) :=
  (checkHealth_published apiNoChildren "" [] [] [] [] rfl rfl rfl rfl rfl).2 rfl rfl rfl rfl

/-- C3, as stated, fails: with `consecFailed = 3`, three consecutive polls that each find
the custom resource not found (fetch error text containing "not found") leave the
monitor running, its error counter at 0, and the cache entry at status `deploying`
with message "Waiting for resource in kubernetes": `checkHealth` turns a not-found
fetch into a status without error. -/
theorem notFound_polls_do_not_escalate :
    strContains "widgets.example.com demo not found" "not found" = true ∧
    (monitorHealth defaultConfig startGlobals "k" "" 10000000000
        [pollNotFound 1, pollNotFound 2, pollNotFound 3]).stopped = none ∧
    (monitorHealth defaultConfig startGlobals "k" "" 10000000000
        [pollNotFound 1, pollNotFound 2, pollNotFound 3]).locals.consecutiveNotFoundChecks = 0 ∧
    (monitorHealth defaultConfig startGlobals "k" "" 10000000000
        [pollNotFound 1, pollNotFound 2, pollNotFound 3]).globals.statusCache "k" =
      some ⟨⟨"deploying", [], "Waiting for resource in kubernetes"⟩, 3, 0, 0⟩ := by
  refine ⟨by decide, by decide, by decide, by decide⟩

/-- C3, amended: for `consecFailed >= 1`, if `consecFailed` consecutive polls each end
with `checkHealth` returning an error (a fetch error whose text does not contain
"not found", a body that does not decode, or a failed list call), the monitor
terminates no later than the last of them, so no later poll is performed; if it was
still running when the first of them was due it writes, as its last action, the entry
with status `failed` and message "Resource not found after multiple checks" for the
key; and a monitor that meets them as its first polls performs all of them. -/
theorem monitor_escalates_on_errors (cfg : Config) (g : Globals) (key sel : String) (delay : Int)
    (pre run post : List PollInput) (r : MonitorRun)
    (hr : monitorHealth cfg g key sel delay (pre ++ run ++ post) = r)
    (h1 : 1 ≤ g.consecFailed) (hlen : (run.length : Int) = g.consecFailed)
    (hfail : ∀ inp ∈ run, pollFails sel inp = true) :
    r.stopped ≠ none ∧ post.length ≤ r.unconsumed.length ∧
    (r.unconsumed.length < run.length + post.length →
      r.stopped = some .failed ∧
      ∃ inp ∈ run, ∃ front,
        r.globals.statusCache key =
          some ⟨⟨"failed", [], "Resource not found after multiple checks"⟩, inp.now, 0, 0⟩ ∧
        r.trace = front ++
          [.write key ⟨⟨"failed", [], "Resource not found after multiple checks"⟩, inp.now, 0, 0⟩]) ∧
    (pre = [] → r.stopped = some .failed ∧ r.unconsumed = post) := by
  subst hr
  have hne : run ≠ [] := by
    intro h0
    rw [h0] at hlen
    simp at hlen
    omega
  simp only [monitorHealth, List.append_assoc]
  cases hs : (monitorLoop cfg key sel g ⟨0, 0, cfg.checkInterval⟩ pre).stopped with
  | some s =>
    rw [monitorLoop_append_stopped cfg key sel (run ++ post) pre g _ s hs]
    simp only [hs, List.length_append]
    refine ⟨by simp, by omega, fun h => by omega, fun h0 => ?_⟩
    subst h0
    simp [monitorLoop] at hs
  | none =>
    rw [monitorLoop_append_running cfg key sel (run ++ post) pre g _ hs]
    simp only
    have hnn := monitorLoop_nonneg cfg key sel pre g ⟨0, 0, cfg.checkInterval⟩ ⟨le_refl _, le_refl _⟩
    have hcf := monitorLoop_consecFailed cfg key sel pre g ⟨0, 0, cfg.checkInterval⟩
    obtain ⟨k1, k2, ⟨i, hi, front, k3, k4⟩, k5⟩ :=
      monitorLoop_fails_run cfg key sel post run
        (monitorLoop cfg key sel g ⟨0, 0, cfg.checkInterval⟩ pre).globals
        (monitorLoop cfg key sel g ⟨0, 0, cfg.checkInterval⟩ pre).locals hfail hne
        (by rw [hcf, ← hlen]; have := hnn.2; omega)
    refine ⟨by simp [k1], k2, fun _ => ⟨k1, i, hi,
      .sleep delay :: (monitorLoop cfg key sel g ⟨0, 0, cfg.checkInterval⟩ pre).trace ++ front,
      k3, ?_⟩, fun h0 => ⟨k1, ?_⟩⟩
    · rw [k4, ← List.append_assoc, ← List.cons_append]
      rfl
    · subst h0
      exact k5 (by simp only [monitorLoop]; rw [← hlen]; simp)

/-- C3 amended, at the default `consecFailed = 3` and three polls that cannot reach the
API server, followed by a poll that is never performed. -/
theorem monitor_escalates_on_errors_witness :
    (monitorHealth defaultConfig startGlobals "k" "" 10000000000
        ([] ++ [pollRefused 1, pollRefused 2, pollRefused 3] ++ [pollNoChildren 4])).stopped
      = some .failed ∧
    (monitorHealth defaultConfig startGlobals "k" "" 10000000000
        ([] ++ [pollRefused 1, pollRefused 2, pollRefused 3] ++ [pollNoChildren 4])).unconsumed
      = [pollNoChildren 4] :=
  (monitor_escalates_on_errors defaultConfig startGlobals "k" "" 10000000000 []
    [pollRefused 1, pollRefused 2, pollRefused 3] [pollNoChildren 4] _ rfl (by decide) (by decide)
    (by decide)).2.2.2 rfl

/-- C4, as stated, fails: from the same state (counters 0, delay `checkInterval`,
`consecFailed = 3`) a not-found fetch error and a connection-refused fetch error take
different transitions: the first resets the error counter to 0, writes status
`deploying` and sleeps `checkInterval`; the second raises the counter to 1, writes
nothing and sleeps `checkInterval + increaseIntervalValue`. -/
theorem notFound_and_transport_error_differ :
    (monitorIteration defaultConfig "k" "" startGlobals ⟨0, 0, 25000000000⟩ (pollNotFound 1)).events =
      [.check, .write "k" ⟨⟨"deploying", [], "Waiting for resource in kubernetes"⟩, 1, 0, 0⟩,
        .sleep 25000000000] ∧
    (monitorIteration defaultConfig "k" "" startGlobals ⟨0, 0, 25000000000⟩ (pollRefused 1)).events =
      [.check, .sleep 40000000000] ∧
    (monitorIteration defaultConfig "k" "" startGlobals ⟨0, 0, 25000000000⟩
      (pollNotFound 1)).locals.consecutiveNotFoundChecks = 0 ∧
    (monitorIteration defaultConfig "k" "" startGlobals ⟨0, 0, 25000000000⟩
      (pollRefused 1)).locals.consecutiveNotFoundChecks = 1 := by
  refine ⟨by decide, by decide, by decide, by decide⟩

/-- C4, amended: every poll in which `checkHealth` returns an error takes the same
monitor transition whatever the error (two such polls at the same clock reading give
the same iteration): `consecutiveNotFoundChecks` is incremented, the monitor writes
status `failed` and terminates when the counter reaches `consecFailed`, and otherwise
grows the next delay by `increaseIntervalValue`.  A fetch error whose text does not
contain "not found", a body that does not decode and a failed list call are such
polls.  A fetch error whose text contains "not found" is not: `checkHealth` returns no
error for it, and the monitor resets the counter to 0, writes status `deploying` with
message "Waiting for resource in kubernetes" and does not escalate. -/
theorem errors_share_one_transition (cfg : Config) (key sel : String) (g : Globals) (l : Locals) :
    (∀ inp1 inp2 : PollInput, pollFails sel inp1 = true → pollFails sel inp2 = true →
      inp1.now = inp2.now →
      monitorIteration cfg key sel g l inp1 = monitorIteration cfg key sel g l inp2) ∧
    (∀ inp : PollInput, pollFails sel inp = true →
      (monitorIteration cfg key sel g l inp).locals.consecutiveNotFoundChecks =
        l.consecutiveNotFoundChecks + 1 ∧
      (l.consecutiveNotFoundChecks + 1 ≥ g.consecFailed →
        (monitorIteration cfg key sel g l inp).stopped = some .failed ∧
        (monitorIteration cfg key sel g l inp).globals.statusCache key =
          some ⟨⟨"failed", [], "Resource not found after multiple checks"⟩, inp.now, 0, 0⟩) ∧
      (l.consecutiveNotFoundChecks + 1 < g.consecFailed →
        (monitorIteration cfg key sel g l inp).stopped = none ∧
        (monitorIteration cfg key sel g l inp).events =
          [.check, .sleep (wrapInt64 (l.failedCheckInterval + cfg.increaseIntervalValue))])) ∧
    (∀ (inp : PollInput) (text : String), inp.limiterErr = none →
      inp.api.customResource = .err text →
      (strContains text "not found" = false → pollFails sel inp = true) ∧
      (strContains text "not found" = true →
        pollFails sel inp = false ∧
        (monitorIteration cfg key sel g l inp).locals.consecutiveNotFoundChecks = 0 ∧
        (monitorIteration cfg key sel g l inp).stopped ≠ some .failed ∧
        (monitorIteration cfg key sel g l inp).globals.statusCache key =
          some ⟨⟨"deploying", [], "Waiting for resource in kubernetes"⟩, inp.now, 0, 0⟩)) ∧
    (∀ (inp : PollInput) (e : String) (m : Option String), inp.limiterErr = none →
      inp.api.customResource = .body (some e) m → pollFails sel inp = true) ∧
    (∀ (inp : PollInput) (e : String), inp.limiterErr = none →
      inp.api.customResource = .body none none →
      runCheckers inp.api sel checkers ([], "ready") = .error e → pollFails sel inp = true) := by
  refine ⟨?_, ?_, ?_, ?_, ?_⟩
  · intro inp1 inp2 h1 h2 hnow
    rw [monitorIteration_fails cfg key sel g l inp1 h1, monitorIteration_fails cfg key sel g l inp2 h2,
      hnow]
  · intro inp h
    rw [monitorIteration_fails cfg key sel g l inp h]
    refine ⟨by split_ifs <;> rfl, fun hge => ?_, fun hlt => ?_⟩
    · rw [if_pos hge]
      exact ⟨rfl, by simp [StatusCache.set, failedEntry]⟩
    · rw [if_neg (by omega)]
      exact ⟨rfl, rfl⟩
  · intro inp text hl hf
    constructor
    · intro hnf
      simp [pollFails, hl, checkHealth_transport_error inp.api sel text hf hnf]
    · intro hnf
      have hc := checkHealth_notFound inp.api sel text hf hnf
      have hok : pollSucceeds sel inp = true := by simp [pollSucceeds, hl, hc]
      rw [monitorIteration_succeeds cfg key sel g l inp hok, hc]
      refine ⟨by simp [pollFails, hl, hc], ?_, ?_, ?_⟩
      · split_ifs <;> rfl
      · split_ifs <;> simp
      · split_ifs <;> simp [StatusCache.set]
  · intro inp e m hl hf
    simp [pollFails, hl, checkHealth_decode_error inp.api sel e m hf]
  · intro inp e hl hf hrun
    simp [pollFails, hl, checkHealth_body inp.api sel hf, hrun]

/-- C4 amended, at a connection-refused fetch and an undecodable body, both at clock
reading 1, from the start state of a monitor. -/
theorem errors_share_one_transition_witness :
    monitorIteration defaultConfig "k" "" startGlobals ⟨0, 0, 25000000000⟩ (pollRefused 1) =
      monitorIteration defaultConfig "k" "" startGlobals ⟨0, 0, 25000000000⟩ (pollUndecodable 1) :=
  (errors_share_one_transition defaultConfig "k" "" startGlobals ⟨0, 0, 25000000000⟩).1
    (pollRefused 1) (pollUndecodable 1) (by decide) (by decide) rfl

/-- C5: for `consecHealthy >= 1`, if `consecHealthy` consecutive polls each publish
status `ready`, the monitor terminates no later than the last of them, so no later poll
is performed; if it was still running when the first of them was due it terminates
through the healthy return right after the write of a `ready` status for the key (no
sleep follows), which the cache then holds; and a monitor that meets them as its first
polls performs all of them. -/
theorem monitor_stops_after_ready_polls (cfg : Config) (g : Globals) (key sel : String) (delay : Int)
    (pre run post : List PollInput) (r : MonitorRun)
    (hr : monitorHealth cfg g key sel delay (pre ++ run ++ post) = r)
    (h1 : 1 ≤ cfg.consecHealthy) (hlen : (run.length : Int) = cfg.consecHealthy)
    (hready : ∀ inp ∈ run, pollReady sel inp = true) :
    r.stopped ≠ none ∧ post.length ≤ r.unconsumed.length ∧
    (r.unconsumed.length < run.length + post.length →
      r.stopped = some .healthy ∧
      ∃ inp ∈ run, ∃ front,
        (checkHealth inp.api sel).1.Status = "ready" ∧
        r.globals.statusCache key = some ⟨(checkHealth inp.api sel).1, inp.now, 0, 0⟩ ∧
        r.trace = front ++ [.write key ⟨(checkHealth inp.api sel).1, inp.now, 0, 0⟩]) ∧
    (pre = [] → r.stopped = some .healthy ∧ r.unconsumed = post) := by
  subst hr
  have hne : run ≠ [] := by
    intro h0
    rw [h0] at hlen
    simp at hlen
    omega
  simp only [monitorHealth, List.append_assoc]
  cases hs : (monitorLoop cfg key sel g ⟨0, 0, cfg.checkInterval⟩ pre).stopped with
  | some s =>
    rw [monitorLoop_append_stopped cfg key sel (run ++ post) pre g _ s hs]
    simp only [hs, List.length_append]
    refine ⟨by simp, by omega, fun h => by omega, fun h0 => ?_⟩
    subst h0
    simp [monitorLoop] at hs
  | none =>
    rw [monitorLoop_append_running cfg key sel (run ++ post) pre g _ hs]
    simp only
    have hnn := monitorLoop_nonneg cfg key sel pre g ⟨0, 0, cfg.checkInterval⟩ ⟨le_refl _, le_refl _⟩
    obtain ⟨k1, k2, ⟨i, hi, front, k0, k3, k4⟩, k5⟩ :=
      monitorLoop_ready_run cfg key sel post run
        (monitorLoop cfg key sel g ⟨0, 0, cfg.checkInterval⟩ pre).globals
        (monitorLoop cfg key sel g ⟨0, 0, cfg.checkInterval⟩ pre).locals hready hne
        (by rw [← hlen]; have := hnn.1; omega)
    refine ⟨by simp [k1], k2, fun _ => ⟨k1, i, hi,
      .sleep delay :: (monitorLoop cfg key sel g ⟨0, 0, cfg.checkInterval⟩ pre).trace ++ front,
      k0, k3, ?_⟩, fun h0 => ⟨k1, ?_⟩⟩
    · rw [k4, ← List.append_assoc, ← List.cons_append]
      rfl
    · subst h0
      exact k5 (by simp only [monitorLoop]; rw [← hlen]; simp)

/-- C5 at the default `consecHealthy = 4` and four polls of a resource without
children, followed by a poll that is never performed. -/
theorem monitor_stops_after_ready_polls_witness :
    (monitorHealth defaultConfig startGlobals "k" "" 10000000000
        ([] ++ [pollNoChildren 1, pollNoChildren 2, pollNoChildren 3, pollNoChildren 4] ++
          [pollRefused 5])).stopped = some .healthy ∧
    (monitorHealth defaultConfig startGlobals "k" "" 10000000000
        ([] ++ [pollNoChildren 1, pollNoChildren 2, pollNoChildren 3, pollNoChildren 4] ++
          [pollRefused 5])).unconsumed = [pollRefused 5] :=
  (monitor_stops_after_ready_polls defaultConfig startGlobals "k" "" 10000000000 []
    [pollNoChildren 1, pollNoChildren 2, pollNoChildren 3, pollNoChildren 4] [pollRefused 5] _ rfl
    (by decide) (by decide) (by decide)).2.2.2 rfl

/-- C6, as stated, fails.  With the defaults (25 s, 15 s, `consecFailed = 3`), two
consecutive polls whose fetch fails with a not-found error are each followed by a sleep
of `checkInterval` = 25 s, not of 40 s and 55 s: `checkHealth` returns no error for
them, so the monitor takes its success branch and resets the delay.  And with
`increaseIntervalValue` = 2^62 ns, the sleep after the second of two polls that cannot
reach the API server is `checkInterval + 2 * increaseIntervalValue` wrapped to 64 bits,
a negative duration, not that sum. -/
theorem notFound_polls_do_not_back_off :
    strContains "widgets.example.com demo not found" "not found" = true ∧
    (monitorHealth defaultConfig startGlobals "k" "" 10000000000
        [pollNotFound 1, pollNotFound 2]).trace =
      [.sleep 10000000000,
        .check, .write "k" ⟨⟨"deploying", [], "Waiting for resource in kubernetes"⟩, 1, 0, 0⟩,
        .sleep 25000000000,
        .check, .write "k" ⟨⟨"deploying", [], "Waiting for resource in kubernetes"⟩, 2, 0, 0⟩,
        .sleep 25000000000] ∧
    defaultConfig.checkInterval + 2 * defaultConfig.increaseIntervalValue = 55000000000 ∧
    (monitorHealth configHugeIncrease startGlobals "k" "" 10000000000
        [pollRefused 1, pollRefused 2]).trace =
      [.sleep 10000000000, .check, .sleep 4611686043427387904,
        .check, .sleep (-9223372011854775808)] ∧
    configHugeIncrease.checkInterval + 2 * configHugeIncrease.increaseIntervalValue =
      9223372061854775808 := by
  refine ⟨by decide, by decide, by decide, by decide, by decide⟩

/-- C6, amended: in `monitorHealth`, for `1 <= k < consecFailed`, after the `k`-th
consecutive poll in which `checkHealth` returns an error (a fetch error whose text does
not contain "not found" is one), counted from the start or from the last successful
poll, the monitor is still running and the delay it sleeps is
`checkInterval + k * increaseIntervalValue` wrapped to 64 bits, which is
`checkInterval + k * increaseIntervalValue` itself whenever that sum lies in the range
of `time.Duration`; after a successful poll that does not terminate the monitor the
delay it sleeps is exactly `checkInterval`, and a poll whose fetch fails with an error
text containing "not found" is such a successful poll: it never grows the delay. -/
theorem backoff_delays (cfg : Config) (g : Globals) (key sel : String) (delay : Int) :
    (∀ (pre fails : List PollInput) (k : Nat), 1 ≤ k → (k : Int) < g.consecFailed →
      fails.length = k → (∀ inp ∈ fails, pollFails sel inp = true) →
      (pre = [] ∨ ∃ init last, pre = init ++ [last] ∧ pollSucceeds sel last = true) →
      (monitorHealth cfg g key sel delay pre).stopped = none →
      (monitorHealth cfg g key sel delay (pre ++ fails)).stopped = none ∧
      ∃ d front,
        (monitorHealth cfg g key sel delay (pre ++ fails)).trace = front ++ [.sleep d] ∧
        d = wrapInt64 (cfg.checkInterval + k * cfg.increaseIntervalValue) ∧
        (-(2 ^ 63) ≤ cfg.checkInterval + k * cfg.increaseIntervalValue →
          cfg.checkInterval + k * cfg.increaseIntervalValue < 2 ^ 63 →
          d = cfg.checkInterval + k * cfg.increaseIntervalValue)) ∧
    (∀ (pre : List PollInput) (inp : PollInput), pollSucceeds sel inp = true →
      (monitorHealth cfg g key sel delay (pre ++ [inp])).stopped = none →
      ∃ front, (monitorHealth cfg g key sel delay (pre ++ [inp])).trace =
        front ++ [.sleep cfg.checkInterval]) ∧
    (∀ (pre : List PollInput) (inp : PollInput) (text : String), inp.limiterErr = none →
      inp.api.customResource = .err text → strContains text "not found" = true →
      pollSucceeds sel inp = true ∧ pollFails sel inp = false ∧
      ((monitorHealth cfg g key sel delay (pre ++ [inp])).stopped = none →
        ∃ front, (monitorHealth cfg g key sel delay (pre ++ [inp])).trace =
          front ++ [.sleep cfg.checkInterval])) ∧
    (∀ (inp : PollInput) (text : String), inp.limiterErr = none →
      inp.api.customResource = .err text → strContains text "not found" = false →
      pollFails sel inp = true) := by
  have hsucc : ∀ (pre : List PollInput) (inp : PollInput), pollSucceeds sel inp = true →
      (monitorHealth cfg g key sel delay (pre ++ [inp])).stopped = none →
      ∃ front, (monitorHealth cfg g key sel delay (pre ++ [inp])).trace =
        front ++ [.sleep cfg.checkInterval] := by
    intro pre inp hok hrun
    simp only [monitorHealth] at hrun ⊢
    obtain ⟨_, _, front, h3⟩ :=
      monitorLoop_after_success cfg key sel pre g ⟨0, 0, cfg.checkInterval⟩ inp hok hrun
    exact ⟨.sleep delay :: front, by rw [h3]; rfl⟩
  refine ⟨?_, hsucc, ?_, ?_⟩
  · intro pre fails k hk1 hk2 hlen hfail hpre hrun
    simp only [monitorHealth] at hrun ⊢
    have hne : fails ≠ [] := by
      intro h0
      rw [h0] at hlen
      simp at hlen
      omega
    have hstate : (monitorLoop cfg key sel g ⟨0, 0, cfg.checkInterval⟩ pre).locals.consecutiveNotFoundChecks
          = 0 ∧
        (monitorLoop cfg key sel g ⟨0, 0, cfg.checkInterval⟩ pre).locals.failedCheckInterval
          = cfg.checkInterval := by
      rcases hpre with h0 | ⟨init, last, h0, hok⟩
      · subst h0
        exact ⟨rfl, rfl⟩
      · subst h0
        have := monitorLoop_after_success cfg key sel init g ⟨0, 0, cfg.checkInterval⟩ last hok hrun
        exact ⟨this.1, this.2.1⟩
    have hcf := monitorLoop_consecFailed cfg key sel pre g ⟨0, 0, cfg.checkInterval⟩
    obtain ⟨k1, _, front, k3⟩ :=
      monitorLoop_fails_backoff cfg key sel fails
        (monitorLoop cfg key sel g ⟨0, 0, cfg.checkInterval⟩ pre).globals
        (monitorLoop cfg key sel g ⟨0, 0, cfg.checkInterval⟩ pre).locals hfail
        (by rw [hcf, hstate.1, hlen]; omega) hne
    rw [monitorLoop_append_running cfg key sel fails pre g _ hrun]
    simp only
    refine ⟨k1, wrapInt64 (cfg.checkInterval + k * cfg.increaseIntervalValue),
      .sleep delay :: (monitorLoop cfg key sel g ⟨0, 0, cfg.checkInterval⟩ pre).trace ++ front,
      ?_, rfl, fun h1 h2 => wrapInt64_of_inRange _ h1 h2⟩
    rw [k3, hstate.2, hlen]
    simp only [List.cons_append, List.append_assoc]
  · intro pre inp text hl hf hnf
    have hc := checkHealth_notFound inp.api sel text hf hnf
    have hok : pollSucceeds sel inp = true := by simp [pollSucceeds, hl, hc]
    exact ⟨hok, by simp [pollFails, hl, hc], hsucc pre inp hok⟩
  · intro inp text hl hf hnf
    simp [pollFails, hl, checkHealth_transport_error inp.api sel text hf hnf]

/-- C6 amended, at the defaults (25 s, 15 s, `consecFailed = 3`): after a poll that finds
the resource without children and two polls that cannot reach the API server the
monitor sleeps 55 s; after a poll whose fetch finds the resource not found it sleeps
25 s. -/
theorem backoff_delays_witness :
    (∃ front,
      (monitorHealth defaultConfig startGlobals "k" "" 10000000000
        ([pollNoChildren 1] ++ [pollRefused 2, pollRefused 3])).trace =
        front ++ [.sleep 55000000000]) ∧
    (∃ front,
      (monitorHealth defaultConfig startGlobals "k" "" 10000000000
        ([pollRefused 1] ++ [pollNotFound 2])).trace = front ++ [.sleep 25000000000]) := by
  constructor
  · obtain ⟨_, d, front, h1, _, h3⟩ :=
      (backoff_delays defaultConfig startGlobals "k" "" 10000000000).1 [pollNoChildren 1]
        [pollRefused 2, pollRefused 3] 2 (by decide) (by decide) rfl (by decide)
        (Or.inr ⟨[], pollNoChildren 1, rfl, by decide⟩) (by decide)
    have hd : d = 55000000000 := by
      rw [h3 (by decide) (by decide)]
      decide
    exact ⟨front, by rw [h1, hd]⟩
  · exact ((backoff_delays defaultConfig startGlobals "k" "" 10000000000).2.2.1 [pollRefused 1]
      (pollNotFound 2) "widgets.example.com demo not found" rfl rfl (by decide)).2.2 (by decide)

/-- C2: a status `checkHealth` returns without error is never `failed`; every checker
step that changes the running severity also appends an issue, so a pass started from
severity `ready` and no issue that ends with no issue ends with severity `ready`; and
in a run of `monitorHealth` every cache write with status `failed` is the escalation
write: it follows a poll in which `checkHealth` returned an error, carries the message
"Resource not found after multiple checks", and is the last action before the monitor
terminates (`resetHandler`, the other writer of the cache, leaves the status of every
entry as it was). -/
theorem checkHealth_never_failed :
    (∀ (api : ApiView) (sel : String) (st : CustomResourceStatus),
      checkHealth api sel = (st, none) → st.Status ≠ "failed") ∧
    (∀ (checker : ResourceChecker) (api : ApiView) (sel : String) (issues : List UnhealthyChild)
      (s : String) (r : Acc),
      checker.Check api sel issues s = .ok r → r.2 ≠ s → ∃ extra, extra ≠ [] ∧ r.1 = issues ++ extra) ∧
    (∀ (api : ApiView) (sel : String) (issues : List UnhealthyChild) (severity : String),
      runCheckers api sel checkers ([], "ready") = .ok (issues, severity) → issues = [] →
      severity = "ready") ∧
    (∀ (cfg : Config) (g : Globals) (key sel : String) (delay : Int) (inputs : List PollInput)
      (k : String) (rs : ResourceStatus),
      Event.write k rs ∈ (monitorHealth cfg g key sel delay inputs).trace →
      rs.CustomResourceStatus.Status = "failed" →
      (monitorHealth cfg g key sel delay inputs).stopped = some .failed ∧ k = key ∧
      (∃ inp ∈ inputs, pollFails sel inp = true ∧
        rs = ⟨⟨"failed", [], "Resource not found after multiple checks"⟩, inp.now, 0, 0⟩) ∧
      ∃ front, (monitorHealth cfg g key sel delay inputs).trace = front ++ [.write k rs]) ∧
    (∀ (cache : StatusCache) (crdGroup crdVersion crdPlural namespace_ name k : String),
      ((resetHandler cache crdGroup crdVersion crdPlural namespace_ name).1 k).map
          (fun entry => entry.CustomResourceStatus) =
        (cache k).map (fun entry => entry.CustomResourceStatus)) := by
  refine ⟨?_, ?_, ?_, ?_, ?_⟩
  · intro api sel st h
    rcases checkHealth_status api sel st h with h1 | h1
    · rw [h1.1]; decide
    · rw [h1]; decide
  · intro checker api sel issues s r h hne
    obtain ⟨extra, h1, h2⟩ := Check_extends checker api sel (issues, s) r h
    exact ⟨extra, fun h0 => hne (h2 h0), h1⟩
  · intro api sel issues severity h h0
    exact runCheckers_nil_ready api sel checkers (issues, severity) h h0
  · intro cfg g key sel delay inputs k rs hw hf
    simp only [monitorHealth, List.mem_cons, reduceCtorEq, false_or] at hw ⊢
    obtain ⟨h1, h2, h3, front, h4⟩ :=
      monitorLoop_failed_write cfg key sel k rs hf inputs g ⟨0, 0, cfg.checkInterval⟩ hw
    exact ⟨h1, h2, h3, .sleep delay :: front, by rw [h4]; rfl⟩
  · intro cache crdGroup crdVersion crdPlural namespace_ name k
    unfold resetHandler
    simp only
    cases hc : cache (resourceKey crdGroup crdVersion crdPlural namespace_ name) with
    | none => rfl
    | some st =>
      simp only [StatusCache.set]
      by_cases hk : k = resourceKey crdGroup crdVersion crdPlural namespace_ name
      · simp [hk, hc]
      · simp [hk]

/-- C2 at a pass over a failed pod followed by a pending pod: the status returned is
not `failed`. -/
theorem checkHealth_never_failed_witness :
    (checkHealth apiFailedThenPending "").2 = none ∧
      (checkHealth apiFailedThenPending "").1.Status ≠ "failed" :=
  ⟨rfl, checkHealth_never_failed.1 apiFailedThenPending "" _ rfl⟩

/-- C11: a child that fails the annotation filter contributes nothing: every checker,
the whole pass and `checkHealth` give on the API answers the same result as on those
answers with every child for which `matchAnnotations` is false removed; with the
selector `tier=db`, a pod without the annotation `tier` = `db` (in phase `Failed` or
any other) adds no issue and leaves the severity as it was. -/
theorem unmatched_children_contribute_nothing (api : ApiView) (sel : String) :
    (∀ (checker : ResourceChecker) (issues : List UnhealthyChild) (s : String),
      checker.Check api sel issues s = checker.Check (api.matching sel) sel issues s) ∧
    (∀ acc : Acc, runCheckers api sel checkers acc = runCheckers (api.matching sel) sel checkers acc) ∧
    checkHealth api sel = checkHealth (api.matching sel) sel ∧
    (∀ (pod : Pod) (acc : Acc), pod.Annotations "tier" ≠ some "db" →
      PodChecker.visit "tier=db" acc pod = acc) := by
  refine ⟨fun c i s => (Check_matching c api sel i s).symm,
    fun acc => (runCheckers_matching api sel checkers acc).symm,
    (checkHealth_matching api sel).symm, ?_⟩
  intro pod acc h
  apply podVisit_skip
  have hs : SplitN "tier=db" '=' 2 = ["tier", "db"] := SplitN_two_of_mem "tier" "db" (by decide)
  unfold matchAnnotations
  rw [if_neg (by decide), hs]
  simp only
  cases hm : pod.Annotations "tier" with
  | none => rfl
  | some v =>
    have hv : v ≠ "db" := fun h0 => h (by rw [hm, h0])
    simp [hv]

/-- C11 at a pod in phase `Failed` annotated `tier: web`, under the selector `tier=db`. -/
theorem unmatched_children_contribute_nothing_witness :
    podFailedWeb.Phase = "Failed" ∧
      PodChecker.visit "tier=db" ([], "ready") podFailedWeb = ([], "ready") :=
  ⟨rfl, (unmatched_children_contribute_nothing apiNoChildren "").2.2.2 podFailedWeb ([], "ready")
    (by decide)⟩

/-- C12: a job that passes the annotation filter and has `Failed >= 3` makes the Job
checker append exactly one issue, of kind `Job`, status `Failed` and reason
`getJobFailureReason`, and set the severity to `failed`; that reason is the `Reason` of
the first condition of type `Failed`, and `Unknown` when there is none; so a pass whose
only child is one such job with `Failed = 3` and `Succeeded = 0` has exactly that one
issue, ends with severity `failed` and publishes `deploying`. -/
theorem failed_job_issue (sel : String) (job : Job) :
    (∀ acc : Acc, matchAnnotations job.Annotations sel = true → 3 ≤ job.Failed →
      JobChecker.visit sel acc job =
        (acc.1 ++ [⟨"Job", job.Name, "Failed",
          "Job " ++ job.Name ++ " has failed " ++ toString job.Failed ++ " times",
          getJobFailureReason job⟩], "failed")) ∧
    ((∀ c ∈ job.Conditions, c.CondType ≠ "Failed") → getJobFailureReason job = "Unknown") ∧
    (∀ (pre : List JobCondition) (c : JobCondition) (post : List JobCondition),
      job.Conditions = pre ++ c :: post → (∀ x ∈ pre, x.CondType ≠ "Failed") →
      c.CondType = "Failed" → getJobFailureReason job = c.Reason) ∧
    (∀ api : ApiView, api.customResource = .body none none → api.pods = .ok [] →
      api.jobs = .ok [job] → api.pvs = .ok [] → api.pvcs = .ok [] →
      matchAnnotations job.Annotations sel = true → job.Failed = 3 → job.Succeeded = 0 →
      runCheckers api sel checkers ([], "ready") =
        .ok ([⟨"Job", job.Name, "Failed", "Job " ++ job.Name ++ " has failed 3 times",
          getJobFailureReason job⟩], "failed") ∧
      checkHealth api sel =
        (⟨"deploying", [⟨"Job", job.Name, "Failed", "Job " ++ job.Name ++ " has failed 3 times",
          getJobFailureReason job⟩], ""⟩, none)) := by
  have hvisit : ∀ acc : Acc, matchAnnotations job.Annotations sel = true → 3 ≤ job.Failed →
      JobChecker.visit sel acc job =
        (acc.1 ++ [⟨"Job", job.Name, "Failed",
          "Job " ++ job.Name ++ " has failed " ++ toString job.Failed ++ " times",
          getJobFailureReason job⟩], "failed") := by
    intro acc hm hf
    simp [JobChecker.visit, hm, hf]
  refine ⟨hvisit, getJobFailureReason_none job, getJobFailureReason_first job, ?_⟩
  intro api hfetch hpods hjobs hpvs hpvcs hm hf hs
  have hrun := runCheckers_ok api sel ([], "ready") [] [job] [] [] hpods hjobs hpvs hpvcs
  simp only [List.foldl_nil, List.foldl_cons, hvisit ([], "ready") hm (by omega), List.nil_append,
    hf] at hrun
  have h3 : toString (3 : Int) = "3" := by decide
  rw [h3] at hrun
  have hmsg : "Job " ++ job.Name ++ " has failed " ++ "3" ++ " times" =
      "Job " ++ job.Name ++ " has failed 3 times" := by
    rw [String.append_assoc, String.append_assoc]
    rfl
  rw [hmsg] at hrun
  refine ⟨hrun, ?_⟩
  rw [checkHealth_body api sel hfetch, hrun]
  simp [publishedStatus]

/-- C12 at `jobFailedThrice`, the only child of the resource. -/
theorem failed_job_issue_witness :
    checkHealth apiFailedJob "" =
      (⟨"deploying", [⟨"Job", "migrate", "Failed", "Job migrate has failed 3 times",
        "BackoffLimitExceeded"⟩], ""⟩, none) :=
  ((failed_job_issue "" jobFailedThrice).2.2.2 apiFailedJob rfl rfl rfl rfl rfl (by decide) rfl
    rfl).2

/-- C13, as stated, fails: a job with `Succeeded = 1` and `Failed = 3` makes the Job
checker emit an issue and set the severity to `failed`, because the failure threshold is
tested before the success count. -/
theorem succeeded_job_with_failures_is_reported :
    0 < jobSucceededAndFailed.Succeeded ∧
      JobChecker.visit "" ([], "ready") jobSucceededAndFailed =
        ([⟨"Job", "import", "Failed", "Job import has failed 3 times", "Unknown"⟩], "failed") := by
  refine ⟨by decide, by decide⟩

/-- C13, amended: a job with `Succeeded > 0` and `Failed < 3` makes the Job checker emit
no issue and leave the severity unchanged; a job that passes the annotation filter and
has `Succeeded = 0` and `Failed < 3` makes it append exactly one issue (kind `Job`,
status `Pending`, reason `getJobFailureReason`) and set the severity to `deploying`
unless it is `failed`. -/
theorem job_below_threshold (sel : String) (acc : Acc) (job : Job) :
    (0 < job.Succeeded → job.Failed < 3 → JobChecker.visit sel acc job = acc) ∧
    (matchAnnotations job.Annotations sel = true → job.Succeeded = 0 → job.Failed < 3 →
      JobChecker.visit sel acc job =
        (acc.1 ++ [⟨"Job", job.Name, "Pending", "Job " ++ job.Name ++ " is in Pending state",
          getJobFailureReason job⟩],
          if acc.2 = "failed" then "failed" else "deploying")) := by
  constructor
  · intro hs hf
    have h1 : ¬ (3 ≤ job.Failed) := by omega
    have h2 : job.Succeeded ≠ 0 := by omega
    simp [JobChecker.visit, h1, h2]
  · intro hm hs hf
    have h1 : ¬ (3 ≤ job.Failed) := by omega
    by_cases hacc : acc.2 = "failed"
    · simp [JobChecker.visit, hm, h1, hs, hacc]
    · simp [JobChecker.visit, hm, h1, hs, hacc]

/-- C13 amended, at a job that failed once and has not succeeded, from severity `ready`. -/
theorem job_below_threshold_witness :
    JobChecker.visit "" ([], "ready") jobStarting =
      ([] ++ [⟨"Job", "seed", "Pending", "Job seed is in Pending state", "Unknown"⟩],
        if "ready" = "failed" then "failed" else "deploying") :=
  (job_below_threshold "" ([], "ready") jobStarting).2 (by decide) rfl (by decide)

/-- C14, as stated, fails: a running pod whose container statuses are all ready, but
whose `Ready` condition is not `True`, makes the Pod checker emit an issue with reason
`NotAllContainersReady` and raise the severity to `deploying`. -/
theorem ready_containers_do_not_suffice :
    (∀ c ∈ podRunningNotReady.ContainerStatuses, c.Ready = true) ∧
      PodChecker.visit "" ([], "ready") podRunningNotReady =
        ([⟨"Pod", "web-3", "Running",
          "Pod web-3 is in Running state but not all containers are ready",
          "NotAllContainersReady"⟩], "deploying") := by
  refine ⟨by decide, by decide⟩

/-- C14, amended: for a pod in phase `Running` that passes the annotation filter, the Pod
checker emits no issue and leaves the severity unchanged if and only if all container
statuses of the pod are ready and every pod condition of type `Ready` has status `True`;
otherwise it appends exactly one issue with reason `NotAllContainersReady` and sets the
severity to `deploying` unless it is `failed`. -/
theorem running_pod_issue (sel : String) (acc : Acc) (pod : Pod)
    (hm : matchAnnotations pod.Annotations sel = true) (hp : pod.Phase = "Running") :
    (PodChecker.visit sel acc pod = acc ↔
      (∀ c ∈ pod.ContainerStatuses, c.Ready = true) ∧
      (∀ c ∈ pod.Conditions, c.CondType = "Ready" → c.Status = "True")) ∧
    (¬ ((∀ c ∈ pod.ContainerStatuses, c.Ready = true) ∧
        (∀ c ∈ pod.Conditions, c.CondType = "Ready" → c.Status = "True")) →
      PodChecker.visit sel acc pod =
        (acc.1 ++ [⟨"Pod", pod.Name, pod.Phase,
          "Pod " ++ pod.Name ++ " is in " ++ pod.Phase ++ " state but not all containers are ready",
          "NotAllContainersReady"⟩],
          if acc.2 = "failed" then "failed" else "deploying")) := by
  have hbad : isPodHealthy pod = false →
      PodChecker.visit sel acc pod =
        (acc.1 ++ [⟨"Pod", pod.Name, pod.Phase,
          "Pod " ++ pod.Name ++ " is in " ++ pod.Phase ++ " state but not all containers are ready",
          "NotAllContainersReady"⟩],
          if acc.2 = "failed" then "failed" else "deploying") := by
    intro hh
    by_cases hacc : acc.2 = "failed"
    · simp [PodChecker.visit, hm, hp, hh, hacc]
    · simp [PodChecker.visit, hm, hp, hh, hacc]
  constructor
  · rw [← isPodHealthy_iff]
    constructor
    · intro hv
      by_contra hh
      rw [hbad (by simpa using hh)] at hv
      exact append_singleton_ne_self _ _ _ _ hv
    · intro hh
      simp [PodChecker.visit, hm, hp, hh]
  · intro hne
    rw [← isPodHealthy_iff] at hne
    exact hbad (by simpa using hne)

/-- C14 amended, at a running pod with one container that is not ready. -/
theorem running_pod_issue_witness :
    PodChecker.visit "" ([], "ready") podRunningStarting =
      ([] ++ [⟨"Pod", "web-4", "Running",
        "Pod web-4 is in Running state but not all containers are ready",
        "NotAllContainersReady"⟩],
        if "ready" = "failed" then "failed" else "deploying") :=
  (running_pod_issue "" ([], "ready") podRunningStarting (by decide) rfl).2 (by decide)

/-- C15: for a pod that passes the annotation filter and is not in phase `Running`, the
Pod checker follows the table: `Succeeded` emits no issue and leaves the severity
unchanged; `Pending` appends one issue with reason `Pending` and sets `deploying` unless
the severity is `failed`; `Failed` or `Unknown` appends one issue whose reason is the
waiting reason of the first container status that has a waiting state (`Unknown` when
no container is waiting) and sets `failed`; any other phase appends one issue with reason
`Unknown` and sets `deploying` unless the severity is `failed`; each issue carries the
phase string of the pod as its status. -/
theorem pod_phase_table (sel : String) (acc : Acc) (pod : Pod)
    (hm : matchAnnotations pod.Annotations sel = true) :
    (pod.Phase = "Succeeded" → PodChecker.visit sel acc pod = acc) ∧
    (pod.Phase = "Pending" →
      PodChecker.visit sel acc pod =
        (acc.1 ++ [⟨"Pod", pod.Name, pod.Phase, "Pod " ++ pod.Name ++ " is in Pending state",
          "Pending"⟩],
          if acc.2 = "failed" then "failed" else "deploying")) ∧
    (pod.Phase = "Failed" ∨ pod.Phase = "Unknown" →
      PodChecker.visit sel acc pod =
        (acc.1 ++ [⟨"Pod", pod.Name, pod.Phase,
          "Pod " ++ pod.Name ++ " is in " ++ pod.Phase ++ " state", getPodFailureReason pod⟩],
          "failed")) ∧
    ((∀ c ∈ pod.ContainerStatuses, c.Waiting = none) → getPodFailureReason pod = "Unknown") ∧
    (∀ (pre : List ContainerStatus) (c : ContainerStatus) (reason : String)
      (post : List ContainerStatus),
      pod.ContainerStatuses = pre ++ c :: post → (∀ x ∈ pre, x.Waiting = none) →
      c.Waiting = some reason → getPodFailureReason pod = reason) ∧
    (pod.Phase ≠ "Running" → pod.Phase ≠ "Pending" → pod.Phase ≠ "Failed" →
      pod.Phase ≠ "Unknown" → pod.Phase ≠ "Succeeded" →
      PodChecker.visit sel acc pod =
        (acc.1 ++ [⟨"Pod", pod.Name, pod.Phase,
          "Pod " ++ pod.Name ++ " is in an unexpected state: " ++ pod.Phase, "Unknown"⟩],
          if acc.2 = "failed" then "failed" else "deploying")) := by
  refine ⟨?_, ?_, ?_, getPodFailureReason_none pod, getPodFailureReason_first pod, ?_⟩
  · intro hp
    simp [PodChecker.visit, hm, hp]
  · intro hp
    by_cases hacc : acc.2 = "failed"
    · simp [PodChecker.visit, hm, hp, hacc]
    · simp [PodChecker.visit, hm, hp, hacc]
  · intro hp
    rcases hp with hp | hp
    · simp [PodChecker.visit, hm, hp]
    · simp [PodChecker.visit, hm, hp]
  · intro h1 h2 h3 h4 h5
    by_cases hacc : acc.2 = "failed"
    · simp [PodChecker.visit, hm, h1, h2, h3, h4, h5, hacc]
    · simp [PodChecker.visit, hm, h1, h2, h3, h4, h5, hacc]

/-- C15 at a failed pod whose only container waits with `CrashLoopBackOff`, visited at
severity `deploying`. -/
theorem pod_phase_table_witness :
    PodChecker.visit "" ([], "deploying") podFailed =
      ([] ++ [⟨"Pod", "web-0", "Failed", "Pod web-0 is in Failed state", "CrashLoopBackOff"⟩],
        "failed") :=
  (pod_phase_table "" ([], "deploying") podFailed (by decide)).2.2.1 (Or.inl rfl)

/-- C16: for a persistent volume that passes the annotation filter, the PV checker
follows the table: `Bound` emits no issue and leaves the severity unchanged; `Available`
appends one issue with reason `Available` and sets the severity to `ready` unless it is
`failed`; `Failed` appends one issue with reason `Failed` and sets `failed`; `Released`
appends one issue with reason `Released` and sets `deploying` unless the severity is
`failed`; any other phase appends one issue with reason `Unknown` and sets `failed`. -/
theorem pv_phase_table (sel : String) (acc : Acc) (pv : PersistentVolume)
    (hm : matchAnnotations pv.Annotations sel = true) :
    (pv.Phase = "Bound" → PVChecker.visit sel acc pv = acc) ∧
    (pv.Phase = "Available" →
      PVChecker.visit sel acc pv =
        (acc.1 ++ [⟨"PV", pv.Name, pv.Phase, "PV " ++ pv.Name ++ " is Available", "Available"⟩],
          if acc.2 = "failed" then "failed" else "ready")) ∧
    (pv.Phase = "Failed" →
      PVChecker.visit sel acc pv =
        (acc.1 ++ [⟨"PV", pv.Name, pv.Phase, "PV " ++ pv.Name ++ " is in Failed state", "Failed"⟩],
          "failed")) ∧
    (pv.Phase = "Released" →
      PVChecker.visit sel acc pv =
        (acc.1 ++ [⟨"PV", pv.Name, pv.Phase, "PV " ++ pv.Name ++ " is in Released state",
          "Released"⟩],
          if acc.2 = "failed" then "failed" else "deploying")) ∧
    (pv.Phase ≠ "Bound" → pv.Phase ≠ "Available" → pv.Phase ≠ "Failed" → pv.Phase ≠ "Released" →
      PVChecker.visit sel acc pv =
        (acc.1 ++ [⟨"PV", pv.Name, pv.Phase,
          "PV " ++ pv.Name ++ " is in an unexpected state: " ++ pv.Phase, "Unknown"⟩],
          "failed")) := by
  refine ⟨?_, ?_, ?_, ?_, ?_⟩
  · intro hp
    simp [PVChecker.visit, hm, hp]
  · intro hp
    by_cases hacc : acc.2 = "failed"
    · simp [PVChecker.visit, hm, hp, hacc]
    · simp [PVChecker.visit, hm, hp, hacc]
  · intro hp
    simp [PVChecker.visit, hm, hp]
  · intro hp
    by_cases hacc : acc.2 = "failed"
    · simp [PVChecker.visit, hm, hp, hacc]
    · simp [PVChecker.visit, hm, hp, hacc]
  · intro h1 h2 h3 h4
    by_cases hacc : acc.2 = "failed"
    · simp [PVChecker.visit, hm, h1, h2, h3, h4, hacc]
    · simp [PVChecker.visit, hm, h1, h2, h3, h4, hacc]

/-- C16 at a volume in phase `Available`, visited at severity `deploying`. -/
theorem pv_phase_table_witness :
    PVChecker.visit "" ([], "deploying") pvAvailable =
      ([] ++ [⟨"PV", "pv-1", "Available", "PV pv-1 is Available", "Available"⟩],
        if "deploying" = "failed" then "failed" else "ready") :=
  (pv_phase_table "" ([], "deploying") pvAvailable (by decide)).2.1 rfl

/-- C17, as stated, fails: on a resource whose only child is a persistent volume in phase
`Available`, the one issue in `Details` has kind `PV`, which is none of `Pod`, `Job`,
`PersistentVolume`, `PersistentVolumeClaim`. -/
theorem pv_issue_kind_is_PV :
    checkHealth apiAvailablePV "" =
        (⟨"deploying", [⟨"PV", "pv-1", "Available", "PV pv-1 is Available", "Available"⟩], ""⟩,
          none) ∧
      "PV" ≠ "Pod" ∧ "PV" ≠ "Job" ∧ "PV" ≠ "PersistentVolume" ∧ "PV" ≠ "PersistentVolumeClaim" := by
  refine ⟨by decide, by decide, by decide, by decide, by decide⟩

/-- C17, amended: every issue in the `Details` of a status `checkHealth` returns without
error has kind `Pod`, `Job`, `PV` or `PVC` and reports a child of that kind in the API
answers, by name; its status is the phase string of that child for kinds `Pod`, `PV` and
`PVC`, and for kind `Job` it is `Failed` when the job has `Failed >= 3` and `Pending`
otherwise. -/
theorem details_report_children (api : ApiView) (sel : String) (st : CustomResourceStatus)
    (h : checkHealth api sel = (st, none)) :
    ∀ i ∈ st.Details,
      (i.Kind = "Pod" ∨ i.Kind = "Job" ∨ i.Kind = "PV" ∨ i.Kind = "PVC") ∧
      ((i.Kind = "Pod" ∧ ∃ items p, api.pods = .ok items ∧ p ∈ items ∧ i.Name = p.Name ∧
          i.Status = p.Phase) ∨
        (i.Kind = "Job" ∧ ∃ items j, api.jobs = .ok items ∧ j ∈ items ∧ i.Name = j.Name ∧
          ((3 ≤ j.Failed ∧ i.Status = "Failed") ∨ (j.Failed < 3 ∧ i.Status = "Pending"))) ∨
        (i.Kind = "PV" ∧ ∃ items v, api.pvs = .ok items ∧ v ∈ items ∧ i.Name = v.Name ∧
          i.Status = v.Phase) ∨
        (i.Kind = "PVC" ∧ ∃ items c, api.pvcs = .ok items ∧ c ∈ items ∧ i.Name = c.Name ∧
          i.Status = c.Phase)) := by
  intro i hi
  have ho := checkHealth_details_origin api sel st h i hi
  refine ⟨?_, ho⟩
  rcases ho with h1 | h1 | h1 | h1
  · exact Or.inl h1.1
  · exact Or.inr (Or.inl h1.1)
  · exact Or.inr (Or.inr (Or.inl h1.1))
  · exact Or.inr (Or.inr (Or.inr h1.1))

/-- C17 amended, at the issue reported for the failed pod of `apiFailedThenPending`. -/
theorem details_report_children_witness :
    checkHealth apiFailedThenPending "" =
        (⟨"deploying",
          [⟨"Pod", "web-0", "Failed", "Pod web-0 is in Failed state", "CrashLoopBackOff"⟩,
            ⟨"Pod", "web-1", "Pending", "Pod web-1 is in Pending state", "Pending"⟩], ""⟩, none) ∧
      ("Pod" = "Pod" ∨ "Pod" = "Job" ∨ "Pod" = "PV" ∨ "Pod" = "PVC") :=
  ⟨rfl,
    (details_report_children apiFailedThenPending ""
      ⟨"deploying",
        [⟨"Pod", "web-0", "Failed", "Pod web-0 is in Failed state", "CrashLoopBackOff"⟩,
          ⟨"Pod", "web-1", "Pending", "Pod web-1 is in Pending state", "Pending"⟩], ""⟩
      rfl
      ⟨"Pod", "web-0", "Failed", "Pod web-0 is in Failed state", "CrashLoopBackOff"⟩
      (by simp)).1⟩

/-- C18: `healthHandler` never writes the cache and answers from the cache lookup alone:
an entry of age below `checkInterval` gives 200 with the cached status and starts no
monitor; an entry of age `checkInterval` or more gives 200 with the same cached status
and starts a monitor; no entry gives 202 with status `deploying` and message "Initial
check in progress" and starts a monitor; two caches that agree on the key give the same
answer and the same monitor start. -/
theorem healthHandler_answers (cfg : Config) (cache : StatusCache)
    (crdGroup crdVersion crdPlural namespace_ name labelSelector annotationSelector : String)
    (now : Int) :
    (healthHandler cfg cache crdGroup crdVersion crdPlural namespace_ name labelSelector
      annotationSelector now).statusCache = cache ∧
    (∀ st, cache (resourceKey crdGroup crdVersion crdPlural namespace_ name) = some st →
      timeSince now st.Timestamp < cfg.checkInterval →
      (healthHandler cfg cache crdGroup crdVersion crdPlural namespace_ name labelSelector
        annotationSelector now).response = ⟨200, st.CustomResourceStatus⟩ ∧
      (healthHandler cfg cache crdGroup crdVersion crdPlural namespace_ name labelSelector
        annotationSelector now).started = none) ∧
    (∀ st, cache (resourceKey crdGroup crdVersion crdPlural namespace_ name) = some st →
      cfg.checkInterval ≤ timeSince now st.Timestamp →
      (healthHandler cfg cache crdGroup crdVersion crdPlural namespace_ name labelSelector
        annotationSelector now).response = ⟨200, st.CustomResourceStatus⟩ ∧
      (healthHandler cfg cache crdGroup crdVersion crdPlural namespace_ name labelSelector
        annotationSelector now).started =
        some ⟨resourceKey crdGroup crdVersion crdPlural namespace_ name, crdGroup, crdVersion,
          crdPlural, namespace_, name, labelSelector, annotationSelector, cfg.initialDelay⟩) ∧
    (cache (resourceKey crdGroup crdVersion crdPlural namespace_ name) = none →
      (healthHandler cfg cache crdGroup crdVersion crdPlural namespace_ name labelSelector
        annotationSelector now).response =
        ⟨202, ⟨"deploying", [], "Initial check in progress"⟩⟩ ∧
      (healthHandler cfg cache crdGroup crdVersion crdPlural namespace_ name labelSelector
        annotationSelector now).started =
        some ⟨resourceKey crdGroup crdVersion crdPlural namespace_ name, crdGroup, crdVersion,
          crdPlural, namespace_, name, labelSelector, annotationSelector, cfg.initialDelay⟩) ∧
    (∀ cache2 : StatusCache,
      cache2 (resourceKey crdGroup crdVersion crdPlural namespace_ name) =
        cache (resourceKey crdGroup crdVersion crdPlural namespace_ name) →
      (healthHandler cfg cache2 crdGroup crdVersion crdPlural namespace_ name labelSelector
        annotationSelector now).response =
        (healthHandler cfg cache crdGroup crdVersion crdPlural namespace_ name labelSelector
          annotationSelector now).response ∧
      (healthHandler cfg cache2 crdGroup crdVersion crdPlural namespace_ name labelSelector
        annotationSelector now).started =
        (healthHandler cfg cache crdGroup crdVersion crdPlural namespace_ name labelSelector
          annotationSelector now).started) := by
  refine ⟨?_, ?_, ?_, ?_, ?_⟩
  · unfold healthHandler
    simp only
    cases cache (resourceKey crdGroup crdVersion crdPlural namespace_ name) with
    | none => rfl
    | some st => simp only; split_ifs <;> rfl
  · intro st h hlt
    simp [healthHandler, h, hlt]
  · intro st h hge
    have : ¬ (timeSince now st.Timestamp < cfg.checkInterval) := by omega
    simp [healthHandler, h, this]
  · intro h
    simp [healthHandler, h]
  · intro cache2 h
    unfold healthHandler
    simp only [h]
    cases cache (resourceKey crdGroup crdVersion crdPlural namespace_ name) with
    | none => exact ⟨rfl, rfl⟩
    | some st => simp only; split_ifs <;> exact ⟨rfl, rfl⟩

/-- C18 at the cache `cacheOne` (entry written at clock 17), read at clock 20 with the
default `checkInterval`: the entry is fresh. -/
theorem healthHandler_answers_witness :
    (healthHandler defaultConfig cacheOne "g" "v1" "widgets" "ns" "a" "app=demo" "" 20).response =
        ⟨200, ⟨"deploying", [], "m"⟩⟩ ∧
      (healthHandler defaultConfig cacheOne "g" "v1" "widgets" "ns" "a" "app=demo" "" 20).started =
        none :=
  (healthHandler_answers defaultConfig cacheOne "g" "v1" "widgets" "ns" "a" "app=demo" "" 20).2.1
    ⟨⟨"deploying", [], "m"⟩, 17, 2, 1⟩ (by decide) (by decide)

/-- C19: a pass is all-or-nothing: once the resource is fetched and decoded, a failed
list call makes `checkHealth` return the empty status together with the error of that
call, whatever the later list calls would answer and whatever issues the earlier
checkers had collected; in the monitor such a poll writes nothing and leaves the cache
as it was while the error counter stays below `consecFailed`, and is followed by the
escalation write when the counter reaches it. -/
theorem list_failure_aborts_pass (api : ApiView) (sel : String)
    (hfetch : api.customResource = .body none none) :
    (∀ e, api.pods = .error e →
      checkHealth api sel = (⟨"", [], ""⟩, some ("error listing Pods: " ++ e))) ∧
    (∀ pods e, api.pods = .ok pods → api.jobs = .error e →
      checkHealth api sel = (⟨"", [], ""⟩, some ("error listing Jobs: " ++ e))) ∧
    (∀ pods jobs e, api.pods = .ok pods → api.jobs = .ok jobs → api.pvs = .error e →
      checkHealth api sel = (⟨"", [], ""⟩, some ("error listing PVs: " ++ e))) ∧
    (∀ pods jobs pvs e, api.pods = .ok pods → api.jobs = .ok jobs → api.pvs = .ok pvs →
      api.pvcs = .error e →
      checkHealth api sel = (⟨"", [], ""⟩, some ("error listing PVCs: " ++ e))) ∧
    (∀ (cfg : Config) (key : String) (g : Globals) (l : Locals) (inp : PollInput),
      inp.api = api → inp.limiterErr = none →
      ((∃ e, api.pods = .error e) ∨ (∃ e, api.jobs = .error e) ∨ (∃ e, api.pvs = .error e) ∨
        (∃ e, api.pvcs = .error e)) →
      (l.consecutiveNotFoundChecks + 1 < g.consecFailed →
        (monitorIteration cfg key sel g l inp).globals.statusCache = g.statusCache ∧
        (∀ k rs, Event.write k rs ∉ (monitorIteration cfg key sel g l inp).events) ∧
        (monitorIteration cfg key sel g l inp).stopped = none) ∧
      (g.consecFailed ≤ l.consecutiveNotFoundChecks + 1 →
        (monitorIteration cfg key sel g l inp).globals.statusCache key =
          some ⟨⟨"failed", [], "Resource not found after multiple checks"⟩, inp.now, 0, 0⟩ ∧
        (monitorIteration cfg key sel g l inp).stopped = some .failed)) := by
  refine ⟨fun e h => checkHealth_pods_error api sel e hfetch h,
    fun pods e h1 h => checkHealth_jobs_error api sel e pods hfetch h1 h,
    fun pods jobs e h1 h2 h => checkHealth_pvs_error api sel e pods jobs hfetch h1 h2 h,
    fun pods jobs pvs e h1 h2 h3 h => checkHealth_pvcs_error api sel e pods jobs pvs hfetch h1 h2 h3 h,
    ?_⟩
  intro cfg key g l inp hapi hl hlist
  obtain ⟨err, herr⟩ := checkHealth_list_error api sel hfetch hlist
  have hfails : pollFails sel inp = true := by simp [pollFails, hl, hapi, herr]
  rw [monitorIteration_fails cfg key sel g l inp hfails]
  constructor
  · intro hlt
    rw [if_neg (by omega)]
    exact ⟨rfl, fun k rs hmem => by simp at hmem, rfl⟩
  · intro hge
    rw [if_pos hge]
    exact ⟨by simp [StatusCache.set, failedEntry], rfl⟩

/-- C19 at a poll whose job list call fails after a pending pod was listed: no detail of
the pod is returned. -/
theorem list_failure_aborts_pass_witness :
    checkHealth (pollJobsListFails 1).api "" =
      (⟨"", [], ""⟩, some ("error listing Jobs: " ++ "context deadline exceeded")) :=
  (list_failure_aborts_pass (pollJobsListFails 1).api "" rfl).2.1 [podPending]
    "context deadline exceeded" rfl rfl

/-- C20 on the code: with `consecHealthy = 2`, a `ready` poll, a poll in which
`checkHealth` returns an error, and a second `ready` poll end the monitor through the
healthy return, although the two most recent polls are not both `ready`: the error
branch of `monitorHealth` leaves `consecutiveHealthyChecks` as it was. -/
theorem healthy_stop_counts_across_an_error :
    pollReady "" (pollNoChildren 1) = true ∧ pollFails "" (pollRefused 2) = true ∧
    pollReady "" (pollRefused 2) = false ∧ pollReady "" (pollNoChildren 3) = true ∧
    (monitorHealth configTwoHealthy startGlobals "k" "" 10000000000
      [pollNoChildren 1, pollRefused 2, pollNoChildren 3]).stopped = some .healthy ∧
    (monitorHealth configTwoHealthy startGlobals "k" "" 10000000000
      [pollNoChildren 1, pollRefused 2, pollNoChildren 3]).unconsumed = [] ∧
    (monitorHealth configTwoHealthy startGlobals "k" "" 10000000000
      [pollNoChildren 1, pollRefused 2]).locals.consecutiveHealthyChecks = 1 := by
  refine ⟨by decide, by decide, by decide, by decide, by decide, ?_, by decide⟩
  rfl

/-- C21: every cache entry `monitorHealth` writes has `ConsecHealthyChecks = 0` and
`ConsecFailedChecks = 0`; so on every cache reachable from the empty start through
monitor iterations and resets `resetHandler` returns the cache unchanged; and the local
counters, the actions and the return of a monitor iteration, and of a whole run of the
loop, are the same on the cache as on the cache after a reset, so a reset never alters
the healthy or not-found count of a running monitor. -/
theorem monitor_counters_are_local :
    (∀ (cfg : Config) (g : Globals) (key sel : String) (delay : Int) (inputs : List PollInput)
      (k : String) (rs : ResourceStatus),
      Event.write k rs ∈ (monitorHealth cfg g key sel delay inputs).trace →
      rs.ConsecHealthyChecks = 0 ∧ rs.ConsecFailedChecks = 0) ∧
    (∀ cache : StatusCache, Reachable cache →
      ∀ crdGroup crdVersion crdPlural namespace_ name : String,
        (resetHandler cache crdGroup crdVersion crdPlural namespace_ name).1 = cache) ∧
    (∀ (cfg : Config) (key sel : String) (cache : StatusCache) (consecFailed : Int) (l : Locals)
      (inp : PollInput) (crdGroup crdVersion crdPlural namespace_ name : String),
      (monitorIteration cfg key sel
          ⟨(resetHandler cache crdGroup crdVersion crdPlural namespace_ name).1, consecFailed⟩
          l inp).locals =
        (monitorIteration cfg key sel ⟨cache, consecFailed⟩ l inp).locals ∧
      (monitorIteration cfg key sel
          ⟨(resetHandler cache crdGroup crdVersion crdPlural namespace_ name).1, consecFailed⟩
          l inp).stopped =
        (monitorIteration cfg key sel ⟨cache, consecFailed⟩ l inp).stopped) ∧
    (∀ (cfg : Config) (key sel : String) (cache : StatusCache) (consecFailed : Int) (l : Locals)
      (inputs : List PollInput) (crdGroup crdVersion crdPlural namespace_ name : String),
      (monitorLoop cfg key sel
          ⟨(resetHandler cache crdGroup crdVersion crdPlural namespace_ name).1, consecFailed⟩
          l inputs).locals =
        (monitorLoop cfg key sel ⟨cache, consecFailed⟩ l inputs).locals ∧
      (monitorLoop cfg key sel
          ⟨(resetHandler cache crdGroup crdVersion crdPlural namespace_ name).1, consecFailed⟩
          l inputs).trace =
        (monitorLoop cfg key sel ⟨cache, consecFailed⟩ l inputs).trace ∧
      (monitorLoop cfg key sel
          ⟨(resetHandler cache crdGroup crdVersion crdPlural namespace_ name).1, consecFailed⟩
          l inputs).stopped =
        (monitorLoop cfg key sel ⟨cache, consecFailed⟩ l inputs).stopped) := by
  refine ⟨?_, ?_, ?_, ?_⟩
  · intro cfg g key sel delay inputs k rs hw
    simp only [monitorHealth, List.mem_cons, reduceCtorEq, false_or] at hw
    exact monitorLoop_write_counters cfg key sel k rs inputs g ⟨0, 0, cfg.checkInterval⟩ hw
  · intro cache hr crdGroup crdVersion crdPlural namespace_ name
    exact resetHandler_of_zeroCounters cache crdGroup crdVersion crdPlural namespace_ name
      (reachable_zeroCounters cache hr)
  · intro cfg key sel cache consecFailed l inp crdGroup crdVersion crdPlural namespace_ name
    obtain ⟨h1, _, h3, _⟩ := monitorIteration_cache_independent cfg key sel
      (resetHandler cache crdGroup crdVersion crdPlural namespace_ name).1 cache consecFailed l inp
    exact ⟨h1, h3⟩
  · intro cfg key sel cache consecFailed l inputs crdGroup crdVersion crdPlural namespace_ name
    exact monitorLoop_cache_independent cfg key sel inputs
      (resetHandler cache crdGroup crdVersion crdPlural namespace_ name).1 cache consecFailed l

/-- C21 at the cache left by the first poll of a monitor for the key `g/v1/widgets/ns/a`:
a reset of that key returns the same cache. -/
theorem monitor_counters_are_local_witness :
    cacheWritten "g/v1/widgets/ns/a" = some ⟨⟨"ready", [], ""⟩, 5, 0, 0⟩ ∧
      (resetHandler cacheWritten "g" "v1" "widgets" "ns" "a").2.code = 200 ∧
      (resetHandler cacheWritten "g" "v1" "widgets" "ns" "a").1 = cacheWritten :=
  ⟨by decide, by decide,
    monitor_counters_are_local.2.1 cacheWritten
      (Reachable.monitor defaultConfig "g/v1/widgets/ns/a" "" (fun _ => none) 3
        ⟨0, 0, 25000000000⟩ (pollNoChildren 5) Reachable.start)
      "g" "v1" "widgets" "ns" "a"⟩

/-- C22: no step of `monitorHealth` changes `consecFailed`: `checkHealth` never returns
status `failed` without an error, so the assignment `consecFailed = 0` guarded by
`newStatus.Status == "failed"` is never executed; after any one loop iteration of any
monitor, and after a run of `monitorHealth` on any sequence of poll inputs, `consecFailed`
has the value it had before. -/
theorem consecFailed_never_changes :
    (∀ (api : ApiView) (sel : String) (st : CustomResourceStatus),
      checkHealth api sel = (st, none) → st.Status ≠ "failed") ∧
    (∀ (cfg : Config) (key sel : String) (g : Globals) (l : Locals) (inp : PollInput),
      (monitorIteration cfg key sel g l inp).globals.consecFailed = g.consecFailed) ∧
    (∀ (cfg : Config) (g : Globals) (key sel : String) (delay : Int) (inputs : List PollInput),
      (monitorHealth cfg g key sel delay inputs).globals.consecFailed = g.consecFailed) := by
  refine ⟨?_, ?_, ?_⟩
  · intro api sel st h
    rcases checkHealth_status api sel st h with h1 | h1
    · rw [h1.1]; decide
    · rw [h1]; decide
  · intro cfg key sel g l inp
    exact monitorIteration_consecFailed cfg key sel g l inp
  · intro cfg g key sel delay inputs
    simp only [monitorHealth]
    exact monitorLoop_consecFailed cfg key sel inputs g ⟨0, 0, cfg.checkInterval⟩

/-- C22 at a run over a not-found poll, a failing poll and a ready poll, and at the
status of a resource whose only child is an available volume. -/
theorem consecFailed_never_changes_witness :
    (monitorHealth defaultConfig startGlobals "k" "" 10000000000
        [pollNotFound 1, pollRefused 2, pollNoChildren 3]).globals.consecFailed = 3 ∧
      (checkHealth apiAvailablePV "").1.Status ≠ "failed" :=
  ⟨consecFailed_never_changes.2.2 defaultConfig startGlobals "k" "" 10000000000
      [pollNotFound 1, pollRefused 2, pollNoChildren 3],
    consecFailed_never_changes.1 apiAvailablePV "" _ rfl⟩

end K8sMonitor
